import Mathlib

/-!
# Verification of the adaptive content-supply engine

A shallow embedding, in Lean 4, of the content-supply core of the quiz
application (source: `src/App.tsx`, `src/services/geminiService.ts`,
`src/services/db.ts`), together with theorems settling the specification
claims about it.

Conventions of the embedding:
* JS strings are Lean `String`s / `List Char`; JS numbers that carry
  fractional values (`Math.random()` results, similarity scores) are `ℚ`;
  integer-valued JS numbers are `Nat`/`Int`.
* Asynchronous, fallible external calls (the generative backend, the
  IndexedDB/Firestore store) are passed in as explicit oracle values:
  `none` models a thrown exception / rejected promise, `some x` a value.
* Per-call randomness (`Math.random()`) is passed in as explicit `ℚ`
  parameters; the genuine JS values always lie in `[0, 1)`.
-/

namespace TagMastaren

/-- The four subject areas (`Subject` enum from `types`, as used by
`App.tsx` / `geminiService.ts` / `db.ts`). -/
inductive Subject where
  | MATH
  | LANGUAGE
  | LOGIC
  | PHYSICS
deriving DecidableEq, Repr

/-- The two item kinds (`QuestionType` from `types`): standard
multiple-choice vs the interactive drag-and-drop placement item. -/
inductive QuestionType where
  | MULTIPLE_CHOICE
  | DRAG_AND_DROP
deriving DecidableEq, Repr

/-- `dragDropConfig` payload built by `generateDragDropQuestion`
(`geminiService.ts`).  Counts are `Int` because they are produced by
`Math.floor` on JS numbers. -/
structure DragDropConfig where
  itemEmoji : String
  targetCount : Int
  totalItems : Int
  containerName : String
deriving DecidableEq, Repr

/-- The `Question` record (interface `Question` from `types`, fields as
constructed and consumed in `geminiService.ts` / `App.tsx`).  Optional
fields model fields that are absent on some variants. -/
structure Question where
  id : String
  type : QuestionType
  text : String
  options : Option (List String) := none
  correctAnswerIndex : Option Nat := none
  explanation : String := ""
  difficultyLevel : Nat
  visualSubject : Option String := none
  dragDropConfig : Option DragDropConfig := none
deriving DecidableEq, Repr

/-! ## Difficulty escalation (`markQuestionTooHard`, C10)

`geminiService.ts`:
```
export const markQuestionTooHard = async (question: Question): Promise<void> => {
  const newDifficulty = Math.min(5, question.difficultyLevel + 1);
  await trainDb.updateQuestionDifficulty(question.id, newDifficulty);
};
```
`db.ts` `updateQuestionDifficulty(id, newDifficulty)` loads the record by
id, overwrites its `difficultyLevel` and stores it back; a missing id is a
no-op.  The store is modelled as a partial map from id to stored
difficulty level (the only field the operation touches). -/

/-- `db.ts` `updateQuestionDifficulty`: set the stored difficulty of `id`
to `newDifficulty` if a record exists, no-op otherwise. -/
def updateQuestionDifficulty (store : String → Option Int) (id : String)
    (newDifficulty : Int) : String → Option Int :=
  fun k => if k = id then (store id).map (fun _ => newDifficulty) else store k

/-- `geminiService.ts` `markQuestionTooHard`: escalate the stored
difficulty of `question` to `min 5 (difficultyLevel + 1)`. -/
def markQuestionTooHard (store : String → Option Int) (id : String)
    (difficultyLevel : Int) : String → Option Int :=
  updateQuestionDifficulty store id (min 5 (difficultyLevel + 1))

/-! ## Prefetch buffer fill (`ensureBufferFilled`, C3)

`App.tsx`:
```
const BUFFER_TARGET_SIZE = 5;
const ensureBufferFilled = async (subject: Subject) => {
  const currentBufferSize = questionBuffer.length;
  const inflight = fetchingCountRef.current;
  const needed = BUFFER_TARGET_SIZE - (currentBufferSize + inflight);
  if (needed <= 0) return;
  ...
  for (let i = 0; i < needed; i++) {
    fetchingCountRef.current += 1;
    fetchSingleBufferItem(subject, lastTypeInChain).then(() => {
      fetchingCountRef.current -= 1;
    });
  }
};
```
The dispatch decision depends only on the queue length and the in-flight
counter; the whole loop runs synchronously on the event loop, so the
counter increments are visible to any immediately following call. -/

/-- `BUFFER_TARGET_SIZE` from `App.tsx`. -/
def BUFFER_TARGET_SIZE : Int := 5

/-- The state `ensureBufferFilled` reads and writes: the buffered queue
length and the in-flight counter `fetchingCountRef.current`. -/
structure BufferFillState where
  bufferLen : Nat
  inflight : Nat
deriving DecidableEq, Repr

/-- `needed = BUFFER_TARGET_SIZE - (currentBufferSize + inflight)` (a JS
number, possibly negative). -/
def neededCount (s : BufferFillState) : Int :=
  BUFFER_TARGET_SIZE - (s.bufferLen + s.inflight)

/-- One synchronous run of `ensureBufferFilled`: returns the state after
the dispatch loop together with the number of synthesis requests
dispatched.  If `needed <= 0` it returns immediately; otherwise it
increments the in-flight counter once per dispatched request. -/
def ensureBufferFilled (s : BufferFillState) : BufferFillState × Nat :=
  let needed := neededCount s
  if needed ≤ 0 then (s, 0)
  else ({ s with inflight := s.inflight + needed.toNat }, needed.toNat)

/-! ## Similarity Matcher (`db.ts` dedup helpers)

```
const getSimilarity = (s1: string, s2: string): number => {
  let longer = s1; let shorter = s2;
  if (s1.length < s2.length) { longer = s2; shorter = s1; }
  const longerLength = longer.length;
  if (longerLength === 0) return 1.0;
  return (longerLength - editDistance(longer, shorter)) / parseFloat(longerLength.toString());
};

const editDistance = (s1: string, s2: string): number => {
  s1 = s1.toLowerCase(); s2 = s2.toLowerCase();
  const costs = new Array();
  for (let i = 0; i <= s1.length; i++) {
    let lastValue = i;
    for (let j = 0; j <= s2.length; j++) {
      if (i == 0) costs[j] = j;
      else {
        if (j > 0) {
          let newValue = costs[j - 1];
          if (s1.charAt(i - 1) != s2.charAt(j - 1))
            newValue = Math.min(Math.min(newValue, lastValue), costs[j]) + 1;
          costs[j - 1] = lastValue;
          lastValue = newValue;
        }
      }
    }
    if (i > 0) costs[s2.length] = lastValue;
  }
  return costs[s2.length];
};

const extractNumbersFingerprint = (text: string): string => {
  const nums = text.match(/\d+/g);
  if (!nums) return "";
  return nums.sort().join(',');
};
```
Strings are modelled as their `List Char` of code points; `toLowerCase` /
`toUpperCase` are `Char.toLower` / `Char.toUpper` (basic-latin case
mapping, which covers every character the dedup logic discriminates on —
digits in particular are fixed by both).  Similarity scores are `ℚ`. -/

/-- JS `String.prototype.toUpperCase`, per character. -/
def jsToUpper (l : List Char) : List Char := l.map Char.toUpper

/-- JS `String.prototype.trim`: drop whitespace from both ends. -/
def jsTrim (l : List Char) : List Char :=
  ((l.dropWhile Char.isWhitespace).reverse.dropWhile Char.isWhitespace).reverse

/-- Scanner computing `text.match(/\d+/g)`: the list of maximal runs of
consecutive digits, left to right.  `acc` is the (reversed) digit run
currently being read. -/
def digitRunsGo : List Char → List Char → List (List Char)
  | [], acc => if acc = [] then [] else [acc.reverse]
  | c :: cs, acc =>
    if c.isDigit then digitRunsGo cs (c :: acc)
    else (if acc = [] then [] else [acc.reverse]) ++ digitRunsGo cs []

/-- All maximal digit runs of a text (`text.match(/\d+/g)`, with `null`
rendered as the empty list). -/
def digitRuns (l : List Char) : List (List Char) := digitRunsGo l []

/-- JS default `Array.prototype.sort` comparison on strings: lexicographic
by code unit (`<`). -/
def lexLe : List Char → List Char → Bool
  | [], _ => true
  | _ :: _, [] => false
  | a :: as, b :: bs => if a < b then true else if b < a then false else lexLe as bs

/-- The sorting relation used for fingerprints: `lexLe` as a `Prop`. -/
def LexLe (a b : List Char) : Prop := lexLe a b = true

instance : DecidableRel LexLe := fun a b => decEq (lexLe a b) true

/-- `Array.prototype.sort()` with the default (lexicographic) comparator.
Any correct sort yields the same list because the order is total and
antisymmetric; we model it with insertion sort. -/
def jsSort (l : List (List Char)) : List (List Char) := List.insertionSort LexLe l

/-- `Array.prototype.join(',')`. -/
def joinComma : List (List Char) → List Char
  | [] => []
  | [r] => r
  | r :: rs => r ++ ',' :: joinComma rs

/-- `db.ts` `extractNumbersFingerprint` on a list of code points:
sort the maximal digit runs (JS default sort = lexicographic) and join
them with `','`; no digits at all gives `""`. -/
def extractNumbersFingerprintL (l : List Char) : List Char :=
  let nums := digitRuns l
  if nums = [] then [] else joinComma (jsSort nums)

/-- `db.ts` `extractNumbersFingerprint` on a `String`. -/
def extractNumbersFingerprint (text : String) : String :=
  ⟨extractNumbersFingerprintL text.data⟩

/-- Body of the inner loop of `editDistance` for a row `i ≥ 1`: state is
`(lastValue, costs)`, `j0 + 1` is the JS loop variable `j`. -/
def edStep (c1 : Char) (t2 : List Char) (st : Nat × List Nat) (j0 : Nat) :
    Nat × List Nat :=
  let j := j0 + 1
  let lastValue := st.1
  let costs := st.2
  let nv := costs.getD (j - 1) 0
  let newValue :=
    if c1 ≠ t2.getD (j - 1) default then
      min (min nv lastValue) (costs.getD j 0) + 1
    else nv
  (newValue, costs.set (j - 1) lastValue)

/-- One iteration of the outer loop of `editDistance`: row `i = 0`
initializes `costs[j] = j`; a row `i ≥ 1` runs the inner loop with
`lastValue = i` and finally stores `lastValue` at `costs[s2.length]`. -/
def edRow (t1 t2 : List Char) (costs : List Nat) (i : Nat) : List Nat :=
  if i = 0 then List.range (t2.length + 1)
  else
    let c1 := t1.getD (i - 1) default
    let st := (List.range t2.length).foldl (edStep c1 t2) (i, costs)
    st.2.set t2.length st.1

/-- The `costs` array after the outer loop of `editDistance` over the
(already lowercased) character lists. -/
def edCosts (t1 t2 : List Char) : List Nat :=
  (List.range (t1.length + 1)).foldl (edRow t1 t2) []

/-- `db.ts` `editDistance` on lists of code points: lowercase both, run
the dynamic program, read `costs[s2.length]`. -/
def editDistanceL (l1 l2 : List Char) : Nat :=
  let t1 := l1.map Char.toLower
  let t2 := l2.map Char.toLower
  (edCosts t1 t2).getD t2.length 0

/-- `db.ts` `getSimilarity` on lists of code points. -/
def getSimilarityL (s1 s2 : List Char) : ℚ :=
  let longer := if s1.length < s2.length then s2 else s1
  let shorter := if s1.length < s2.length then s1 else s2
  let longerLength := longer.length
  if longerLength = 0 then 1
  else ((longerLength : ℚ) - (editDistanceL longer shorter : ℚ)) / (longerLength : ℚ)

/-- `db.ts` `getSimilarity` on `String`s. -/
def getSimilarity (s1 s2 : String) : ℚ := getSimilarityL s1.data s2.data

/-- The classic dynamic-programming Levenshtein edit distance on prefixes
(insert/delete/substitute each of cost 1): `levNat t1 t2 i j` is the edit
distance between the first `i` characters of `t1` and the first `j`
characters of `t2`.  This is the specification-side definition the claim
C6 compares `editDistance` against. -/
def levNat (t1 t2 : List Char) : Nat → Nat → Nat
  | 0, j => j
  | i + 1, 0 => i + 1
  | i + 1, j + 1 =>
    if t1.getD i default = t2.getD j default then levNat t1 t2 i j
    else 1 + min (levNat t1 t2 i j) (min (levNat t1 t2 (i + 1) j) (levNat t1 t2 i (j + 1)))
termination_by i j => i + j

/-- Levenshtein edit distance between two character lists (the classic DP
recurrence evaluated at the full lengths). -/
def levenshtein (t1 t2 : List Char) : Nat := levNat t1 t2 t1.length t2.length

/-! ## Deduplication Engine (`db.ts` `identifyDuplicates`)

```
private identifyDuplicates(questions: any[]): string[] {
   const uniqueQuestions: any[] = [];
   const duplicateIds: string[] = [];
   for (const q of questions) {
       const text = (q.text || "").trim().toUpperCase();
       if (text.length < 5) continue; // Skip broken/empty
       const qNums = extractNumbersFingerprint(text);
       let isDuplicate = false;
       for (const unique of uniqueQuestions) {
           if (unique.subject && q.subject && unique.subject !== q.subject) continue;
           const uNums = extractNumbersFingerprint((unique.text || ""));
           if (qNums !== uNums) continue;
           const similarity = getSimilarity(text, (unique.text || "").toUpperCase());
           if (similarity > 0.85) { isDuplicate = true; break; }
       }
       if (isDuplicate) duplicateIds.push(q.id);
       else uniqueQuestions.push(q);
   }
   return duplicateIds;
}
```
Batch records are untyped (`any[]`): the fields the engine reads are
`id`, a possibly-missing `text` and a possibly-missing `subject`. -/

/-- A corpus record as consumed by `identifyDuplicates`: only `id`,
`text` and `subject` are read; `text`/`subject` may be absent
(`q.text || ""` / truthiness checks in the source). -/
structure DbQuestion where
  id : String
  text : Option String := none
  subject : Option Subject := none
deriving DecidableEq, Repr

/-- The candidate's text after `(q.text || "").trim().toUpperCase()`. -/
def dedupText (q : DbQuestion) : List Char := jsToUpper (jsTrim (q.text.getD "").data)

/-- One inner-loop comparison of `identifyDuplicates`: does the kept item
`unique` make the candidate (with processed text `text`, fingerprint
`qNums` and subject `qSubject`) a duplicate?  The two `continue` guards
(category mismatch, fingerprint mismatch) yield `false`; otherwise the
similarity is compared against the 0.85 threshold. -/
def isDupOf (text : List Char) (qNums : List Char) (qSubject : Option Subject)
    (unique : DbQuestion) : Bool :=
  if (match unique.subject, qSubject with
      | some us, some qs => us != qs
      | _, _ => false) = true then false
  else if qNums ≠ extractNumbersFingerprintL (unique.text.getD "").data then false
  else getSimilarityL text (jsToUpper (unique.text.getD "").data) > 85 / 100

/-- The iteration of `identifyDuplicates`, instrumented: besides the
flagged ids it returns the final `uniqueQuestions` list and, for each
flagged candidate, the kept item that first matched it (the JS loop
breaks at the first match, i.e. `List.find?`). -/
def dedupTraceGo (uniques : List DbQuestion) :
    List DbQuestion → List DbQuestion × List (DbQuestion × DbQuestion)
  | [] => (uniques, [])
  | q :: rest =>
    let text := dedupText q
    if text.length < 5 then dedupTraceGo uniques rest
    else
      match uniques.find? (isDupOf text (extractNumbersFingerprintL text) q.subject) with
      | some u =>
        let r := dedupTraceGo uniques rest
        (r.1, (q, u) :: r.2)
      | none => dedupTraceGo (uniques ++ [q]) rest

/-- Instrumented run of `identifyDuplicates` on a batch: final kept list
and flagged `(candidate, matched kept item)` pairs. -/
def dedupTrace (questions : List DbQuestion) :
    List DbQuestion × List (DbQuestion × DbQuestion) :=
  dedupTraceGo [] questions

/-- The loop of `identifyDuplicates` itself: `uniques` is
`uniqueQuestions` so far, the result is `duplicateIds` contributed by the
remaining candidates.  (`isDuplicate` is the break-on-first-match inner
loop, i.e. `List.any`.) -/
def identifyDuplicatesGo (uniques : List DbQuestion) : List DbQuestion → List String
  | [] => []
  | q :: rest =>
    let text := dedupText q
    if text.length < 5 then identifyDuplicatesGo uniques rest
    else
      let qNums := extractNumbersFingerprintL text
      let isDuplicate := uniques.any (isDupOf text qNums q.subject)
      if isDuplicate then q.id :: identifyDuplicatesGo uniques rest
      else identifyDuplicatesGo (uniques ++ [q]) rest

/-- `db.ts` `identifyDuplicates`: ids of the batch items flagged as
duplicates, in input order. -/
def identifyDuplicates (questions : List DbQuestion) : List String :=
  identifyDuplicatesGo [] questions

/-! ## Specification-side fingerprint (for claim C7)

Modelled from the spec's words, to be compared with the source's
`extractNumbersFingerprint`: "extracting every maximal digit run in the
text, sorting the resulting integer values in ascending numeric order,
and joining them with a separator". -/

/-- Integer value of a digit run. -/
def digitRunVal (run : List Char) : Nat :=
  run.foldl (fun n c => n * 10 + (c.toNat - 48)) 0

/-- The fingerprint as the spec describes it: maximal digit runs as
integer values, sorted in ascending numeric order, joined with the
separator. -/
def fingerprintSpec (text : String) : String :=
  let nums := (digitRuns text.data).map digitRunVal
  if nums = [] then ""
  else String.intercalate "," ((List.insertionSort (· ≤ ·) nums).map toString)

/-! ## Source Selection Policy (`geminiService.ts` `generateQuestion`)

```
export const generateQuestion = async (subject, difficulty, useDigits, currentCarCount, previousType?) => {
  const canTriggerDragDrop = subject === Subject.MATH && difficulty <= 2 && previousType !== 'DRAG_AND_DROP';
  if (canTriggerDragDrop && Math.random() < 0.3) return generateDragDropQuestion(difficulty);
  try {
    const dbCount = await trainDb.getQuestionCount(subject);
    let aiProbability = 0;
    if (dbCount < 50) aiProbability = 1.0;
    else if (dbCount < 100) aiProbability = 0.2;
    else if (dbCount < 200) aiProbability = 0.1;
    else aiProbability = 0.05;
    const rollDice = Math.random();
    const forceAI = rollDice < aiProbability;
    if (!forceAI) {
      const dbQuestion = await trainDb.getRandomQuestion(subject);
      if (dbQuestion) return { ...dbQuestion, id: crypto.randomUUID() };
    }
    ...
    return await fetchFromAIAndSave(subject, difficulty, useDigits, currentCarCount, specificFocus);
  } catch (error) {
    try {
      const rescueQuestion = await trainDb.getRandomQuestion(subject);
      if (rescueQuestion) return { ...rescueQuestion, id: crypto.randomUUID() };
    } catch (dbError) { }
    const fallbackBase = FALLBACK_QUESTIONS[Math.floor(Math.random() * FALLBACK_QUESTIONS.length)];
    return { ...fallbackBase, id: crypto.randomUUID(), difficultyLevel: difficulty };
  }
};
```
External calls and per-call randomness are supplied through an oracle
record; `none` for an external result models a thrown/rejected call. -/

/-- A static fallback entry (`Omit<Question, 'id'>` in the source). -/
structure FallbackQuestion where
  type : QuestionType
  text : String
  options : List String
  correctAnswerIndex : Nat
  explanation : String
  difficultyLevel : Nat
  visualSubject : Option String
deriving DecidableEq, Repr

/-- `FALLBACK_QUESTIONS` from `geminiService.ts` (static safety net; the
repository file itself stores the non-ASCII letters as the code points
reproduced here). -/
def FALLBACK_QUESTIONS : List FallbackQuestion :=
  [ { type := .MULTIPLE_CHOICE, text := "VILKEN PLANET 츿R N츿RMAST SOLEN?",
      options := ["JORDEN", "MARS", "MERKURIUS", "VENUS"], correctAnswerIndex := 2,
      explanation := "MERKURIUS 츿R DEN MINSTA OCH N츿RMASTE PLANETEN.",
      difficultyLevel := 2, visualSubject := some "Planet Mercury in space" },
    { type := .MULTIPLE_CHOICE, text := "VAD BLIR 5 + 5?",
      options := ["8", "9", "10", "11"], correctAnswerIndex := 2,
      explanation := "5 PLUS 5 츿R LIKA MED 10. DU HAR 10 FINGRAR!",
      difficultyLevel := 1, visualSubject := none },
    { type := .MULTIPLE_CHOICE, text := "VILKET AV DESSA 츿R INTE ETT DJUR?",
      options := ["KATT", "HUND", "BUSS", "H츿ST"], correctAnswerIndex := 2,
      explanation := "EN BUSS 츿R ETT FORDON, INTE ETT DJUR.",
      difficultyLevel := 1, visualSubject := some "A yellow bus" },
    { type := .MULTIPLE_CHOICE, text := "VAD RIMMAR P칀 'HUS'?",
      options := ["BIL", "MUS", "KATT", "T칀G"], correctAnswerIndex := 1,
      explanation := "HUS OCH MUS SLUTAR P칀 SAMMA LJUD.",
      difficultyLevel := 1, visualSubject := some "A cute mouse" },
    { type := .MULTIPLE_CHOICE, text := "VILKEN FORM HAR 3 H칐RN?",
      options := ["CIRKEL", "KVADRAT", "TRIANGEL", "REKTANGEL"], correctAnswerIndex := 2,
      explanation := "TRIANGELN HAR TRE SIDOR OCH TRE H칐RN.",
      difficultyLevel := 2, visualSubject := some "A green triangle shape" },
    { type := .MULTIPLE_CHOICE, text := "MOTSATSEN TILL 'VARM' 츿R...?",
      options := ["STARK", "GLAD", "KALL", "MJUK"], correctAnswerIndex := 2,
      explanation := "OM MAN INTE 츿R VARM S칀 츿R MAN KALL.",
      difficultyLevel := 1, visualSubject := some "Ice cubes and snow" },
    { type := .MULTIPLE_CHOICE, text := "VAD BEH칐VER V츿XTER F칐R ATT LEVA?",
      options := ["GODIS", "VATTEN", "BENSIN", "MJ칐LK"], correctAnswerIndex := 1,
      explanation := "V츿XTER DRICKER VATTEN OCH BEH칐VER SOLLJUS.",
      difficultyLevel := 2, visualSubject := some "A watering can watering a flower" },
    { type := .MULTIPLE_CHOICE, text := "VILKET TAL 츿R ST칐RST?",
      options := ["2", "5", "9", "1"], correctAnswerIndex := 2,
      explanation := "9 츿R DET H칐GSTA TALET I LISTAN.",
      difficultyLevel := 1, visualSubject := none },
    { type := .MULTIPLE_CHOICE, text := "VAD ANV츿NDER T칀GET F칐R ATT RULLA?",
      options := ["F칐TTER", "HJUL", "VINGAR", "FENOR"], correctAnswerIndex := 1,
      explanation := "T칀GET HAR HJUL AV METALL SOM RULLAR P칀 R츿LSEN.",
      difficultyLevel := 1, visualSubject := some "Train wheels close up" },
    { type := .MULTIPLE_CHOICE, text := "VILKEN F츿RG F칀R DU OM DU BLANDAR R칐D OCH GUL?",
      options := ["BL칀", "GR칐N", "ORANGE", "LILA"], correctAnswerIndex := 2,
      explanation := "R칐D OCH GUL TILLSAMMANS BLIR ORANGE.",
      difficultyLevel := 2, visualSubject := some "Orange paint bucket" } ]

/-- Instantiate a fallback base as the returned question:
`{ ...fallbackBase, id: crypto.randomUUID(), difficultyLevel: difficulty }`. -/
def FallbackQuestion.toQuestion (fb : FallbackQuestion) (id : String)
    (difficulty : Nat) : Question :=
  { id := id, type := fb.type, text := fb.text, options := some fb.options,
    correctAnswerIndex := some fb.correctAnswerIndex, explanation := fb.explanation,
    difficultyLevel := difficulty, visualSubject := fb.visualSubject }

/-- The item table of `generateDragDropQuestion`
(`emoji`, `name`, `container`; the emoji code points are reproduced as
stored in the repository file). -/
def dragItems : List (String × String × String) :=
  [ ("游냝", "KOSSOR", "BOSKAPSVAGNEN"),
    ("游닍", "L칀DOR", "GODSVAGNEN"),
    ("游뿻", "TIMMERSTOCKAR", "TIMMERVAGNEN"),
    ("游빕", "RESV츿SKOR", "PASSAGERARVAGNEN"),
    ("丘뙖잺", "KUGGHJUL", "VERKSTADSVAGNEN") ]

/-- `geminiService.ts` `generateDragDropQuestion`: locally construct the
interactive placement item.  `rItem`, `rCount`, `rExtra` are the three
`Math.random()` draws; an out-of-range item index (impossible for draws
in `[0,1)`) would make the JS code throw, modelled as `none`. -/
def generateDragDropQuestion (difficulty : Nat) (id : String)
    (rItem rCount rExtra : ℚ) : Option Question :=
  let idx : Int := ⌊rItem * dragItems.length⌋
  match (if 0 ≤ idx then dragItems.get? idx.toNat else none) with
  | none => none
  | some selectedItem =>
    let targetCount : Int :=
      if difficulty = 1 then ⌊rCount * 5⌋ + 1 else ⌊rCount * 7⌋ + 4
    let totalItems : Int := targetCount + ⌊rExtra * 4⌋ + 2
    some
      { id := id, type := .DRAG_AND_DROP,
        text := "LASTKAJEN: LASTA P칀 EXAKT " ++ toString targetCount ++ " ST "
          ++ selectedItem.2.1 ++ " P칀 " ++ selectedItem.2.2 ++ ".",
        explanation := "BRA JOBBAT! NU HAR T칀GET " ++ toString targetCount ++ " "
          ++ selectedItem.2.1 ++ " MED SIG.",
        difficultyLevel := difficulty,
        dragDropConfig := some
          { itemEmoji := selectedItem.1, targetCount := targetCount,
            totalItems := totalItems, containerName := selectedItem.2.2 } }

/-- Oracle for one call to `generateQuestion`: the `Math.random()` draws,
the fresh UUIDs, and the outcomes of the external calls (`none` = the
call threw / the promise rejected; for the two `getRandomQuestion` calls,
`some none` = resolved with `null`). -/
structure GenOracle where
  rDrag : ℚ
  dragId : String := ""
  rItem : ℚ := 0
  rCount : ℚ := 0
  rExtra : ℚ := 0
  dbCount : Option Nat
  rDice : ℚ
  dbQuestion : Option (Option Question)
  reuseId : String := ""
  aiResult : Option Question
  rescueResult : Option (Option Question)
  rescueId : String := ""
  rFall : ℚ
  fallbackId : String := ""

/-- Which paths one `generateQuestion` call went through (for stating the
policy claims; filled in by `generateQuestion` below). -/
structure GenResult where
  result : Option Question
  madeDragDrop : Bool := false
  usedDbReuse : Bool := false
  calledAI : Bool := false
  usedRescue : Bool := false
  usedStaticFallback : Bool := false
deriving DecidableEq, Repr

/-- The `catch` block of `generateQuestion`: try the corpus rescue, then
the static fallback (`calledAI` records whether the failing path had
invoked the backend). -/
def generateQuestionCatch (difficulty : Nat) (o : GenOracle)
    (calledAI : Bool) : GenResult :=
  match o.rescueResult with
  | some (some q) =>
    { result := some { q with id := o.rescueId }, usedRescue := true,
      calledAI := calledAI }
  | _ =>
    let idx : Int := ⌊o.rFall * FALLBACK_QUESTIONS.length⌋
    match (if 0 ≤ idx then FALLBACK_QUESTIONS.get? idx.toNat else none) with
    | some fb =>
      { result := some (fb.toQuestion o.fallbackId difficulty),
        usedStaticFallback := true, calledAI := calledAI }
    | none => { result := none, usedStaticFallback := true, calledAI := calledAI }

/-- The AI-generation step of `generateQuestion` (step 3), falling into
the catch block when the backend call throws.  The successful backend
result is supplied by the oracle (`fetchFromAIAndSave` consumes it
opaquely: remote contract, §6 of the spec). -/
def generateQuestionAI (difficulty : Nat) (o : GenOracle) : GenResult :=
  match o.aiResult with
  | some q => { result := some q, calledAI := true }
  | none => generateQuestionCatch difficulty o true

/-- `geminiService.ts` `generateQuestion`: drag-drop pre-check, tiered
DB-vs-AI strategy, robust fallback chain. -/
def generateQuestion (subject : Subject) (difficulty : Nat)
    (previousType : Option QuestionType) (o : GenOracle) : GenResult :=
  let canTriggerDragDrop :=
    subject = .MATH ∧ difficulty ≤ 2 ∧ previousType ≠ some .DRAG_AND_DROP
  if canTriggerDragDrop ∧ o.rDrag < 3 / 10 then
    { result := generateDragDropQuestion difficulty o.dragId o.rItem o.rCount o.rExtra,
      madeDragDrop := true }
  else
    match o.dbCount with
    | none => generateQuestionCatch difficulty o false
    | some dbCount =>
      let aiProbability : ℚ :=
        if dbCount < 50 then 1
        else if dbCount < 100 then 2 / 10
        else if dbCount < 200 then 1 / 10
        else 5 / 100
      let forceAI := o.rDice < aiProbability
      if ¬forceAI then
        match o.dbQuestion with
        | none => generateQuestionCatch difficulty o false
        | some (some q) =>
          { result := some { q with id := o.reuseId }, usedDbReuse := true }
        | some none => generateQuestionAI difficulty o
      else generateQuestionAI difficulty o

/-! ## Buffer dispatch context (`App.tsx`, claims C8 and C9)

`ensureBufferFilled` computes one `lastTypeInChain` snapshot — the type
of the tail of the queue, or of the currently displayed question — and
passes that same snapshot as `previousType` to every call it dispatches:

```
let lastTypeInChain: QuestionType | undefined = currentQuestion?.type;
if (questionBuffer.length > 0) {
  lastTypeInChain = questionBuffer[questionBuffer.length - 1].type;
}
for (let i = 0; i < needed; i++) { ... fetchSingleBufferItem(subject, lastTypeInChain) ... }
```
-/

/-- The `previousType` snapshot taken by `ensureBufferFilled`. -/
def lastTypeInChain (questionBuffer : List Question)
    (currentQuestion : Option Question) : Option QuestionType :=
  if questionBuffer.length > 0 then (questionBuffer.getLast?).map Question.type
  else currentQuestion.map Question.type

/-- The outcomes of the synthesis calls dispatched by one
`ensureBufferFilled` run: `needed` calls, every one with the same
`previousType` snapshot, each consuming its own oracle. -/
def fillOutcomes (subject : Subject) (difficulty : Nat)
    (questionBuffer : List Question) (currentQuestion : Option Question)
    (inflight : Nat) (oracles : List GenOracle) : List GenResult :=
  let needed := (ensureBufferFilled ⟨questionBuffer.length, inflight⟩).2
  let prev := lastTypeInChain questionBuffer currentQuestion
  (oracles.take needed).map (generateQuestion subject difficulty prev)

/-- The buffer contents after all calls of one `ensureBufferFilled` run
settle and append their results (`setQuestionBuffer(prev => [...prev, question])`,
failures append nothing). -/
def bufferAfterFill (subject : Subject) (difficulty : Nat)
    (questionBuffer : List Question) (currentQuestion : Option Question)
    (inflight : Nat) (oracles : List GenOracle) : List Question :=
  questionBuffer ++
    (fillOutcomes subject difficulty questionBuffer currentQuestion inflight
      oracles).filterMap GenResult.result

/-- `App.tsx` `loadNextQuestion`, reduced to its item-supply decision:
take the head of the buffer if non-empty; on an empty buffer the item is
the result of the emergency direct `generateQuestion` call. -/
def loadNextQuestion (questionBuffer : List Question) (emergency : GenResult) :
    Option Question :=
  match questionBuffer with
  | nextQ :: _ => some nextQ
  | [] => emergency.result

/-! ## In-flight counter event model (claim C9)

`fetchingCountRef.current` is incremented synchronously by
`ensureBufferFilled` once per dispatched call and decremented exactly once
when the dispatched `fetchSingleBufferItem` promise settles (the function
catches every error internally, so it always fulfills and the `.then`
decrement runs).  A session is a sequence of these events; a settle event
can only occur for a previously dispatched, not yet settled call. -/

/-- An event touching the in-flight counter: an `ensureBufferFilled` run
observing queue length `bufferLen`, or the settlement of one dispatched
`fetchSingleBufferItem` call. -/
inductive FlightEvent where
  | ensureFilled (bufferLen : Nat)
  | settle
deriving DecidableEq, Repr

/-- Statistics of a trace: the counter value `fetchingCountRef.current`
(an `Int`: the code itself never guards against underflow), the total
number of dispatched calls, and the number of settled calls. -/
structure FlightStats where
  counter : Int := 0
  dispatched : Nat := 0
  settled : Nat := 0
deriving DecidableEq, Repr

/-- Number of calls one `ensureBufferFilled` run dispatches when the
counter currently reads `c`. -/
def flightDispatchCount (bufferLen : Nat) (c : Int) : Nat :=
  (BUFFER_TARGET_SIZE - (bufferLen + c)).toNat

/-- Effect of one event on the statistics: `ensureFilled` increments the
counter once per dispatched call, `settle` decrements it exactly once. -/
def flightStep (st : FlightStats) : FlightEvent → FlightStats
  | .ensureFilled bufferLen =>
    let k := flightDispatchCount bufferLen st.counter
    { st with counter := st.counter + k, dispatched := st.dispatched + k }
  | .settle =>
    { st with counter := st.counter - 1, settled := st.settled + 1 }

/-- Statistics after a trace of events, starting from a fresh session. -/
def flightRun (trace : List FlightEvent) : FlightStats :=
  trace.foldl flightStep {}

/-- A trace is valid when settle events only settle calls that were
dispatched earlier and not yet settled (each dispatched promise settles
exactly once, and only after being dispatched): along every prefix of the
trace, the number of settled calls never exceeds the number of dispatched
calls. -/
def ValidTrace (trace : List FlightEvent) : Prop :=
  ∀ t₁ t₂, trace = t₁ ++ t₂ → (flightRun t₁).settled ≤ (flightRun t₁).dispatched

/-! ## Character facts -/

/-- `Char.ofNat` of a small scalar value decodes back to it. -/
theorem char_toNat_ofNat_small {n : Nat} (h : n < 0xd800) :
    (Char.ofNat n).toNat = n := by
  have hv : n.isValidChar := Or.inl h
  simp [Char.ofNat, dif_pos hv, Char.ofNatAux, Char.toNat, UInt32.toNat]

/-- `Char.isDigit` in terms of the scalar value. -/
theorem char_isDigit_iff (d : Char) :
    d.isDigit = true ↔ 48 ≤ d.toNat ∧ d.toNat ≤ 57 := by
  simp [Char.isDigit, Char.toNat, UInt32.le_def, BitVec.le_def, UInt32.toNat]

/-- Upper-casing does not change whether a character is a digit. -/
theorem char_isDigit_toUpper (c : Char) : (Char.toUpper c).isDigit = c.isDigit := by
  simp only [Char.toUpper]
  split
  · rename_i h
    have lhs : (Char.ofNat (c.toNat - 32)).isDigit = false := by
      rw [← Bool.not_eq_true]
      intro hh
      have h2 : (Char.ofNat (c.toNat - 32)).toNat = c.toNat - 32 :=
        char_toNat_ofNat_small (by omega)
      have := (char_isDigit_iff _).mp hh
      omega
    have rhs : c.isDigit = false := by
      rw [← Bool.not_eq_true]
      intro hh
      have := (char_isDigit_iff _).mp hh
      omega
    rw [lhs, rhs]
  · rfl

/-- Upper-casing fixes digits. -/
theorem char_toUpper_of_isDigit (c : Char) (h : c.isDigit = true) :
    Char.toUpper c = c := by
  have := (char_isDigit_iff c).mp h
  simp only [Char.toUpper]
  rw [if_neg (by omega)]

/-- Whitespace characters are not digits. -/
theorem char_not_digit_of_isWhitespace (c : Char) (h : c.isWhitespace = true) :
    c.isDigit = false := by
  simp [Char.isWhitespace] at h
  rcases h with ((h | h) | h) | h <;> subst h <;> decide

/-- Lower-casing is idempotent. -/
theorem char_toLower_toLower (c : Char) : c.toLower.toLower = c.toLower := by
  by_cases h : 65 ≤ c.toNat ∧ c.toNat ≤ 90
  · have e1 : c.toLower = Char.ofNat (c.toNat + 32) := by
      simp only [Char.toLower]
      rw [if_pos ⟨h.1, h.2⟩]
    rw [e1]
    simp only [Char.toLower]
    rw [char_toNat_ofNat_small (by omega), if_neg (by omega)]
  · have e1 : c.toLower = c := by
      simp only [Char.toLower]
      rw [if_neg (by omega)]
    rw [e1, e1]

/-- Lower-casing after upper-casing agrees with lower-casing directly. -/
theorem char_toLower_toUpper (c : Char) : c.toUpper.toLower = c.toLower := by
  by_cases h : 97 ≤ c.toNat ∧ c.toNat ≤ 122
  · have e1 : c.toUpper = Char.ofNat (c.toNat - 32) := by
      simp only [Char.toUpper]
      rw [if_pos ⟨h.1, h.2⟩]
    have e2 : c.toLower = c := by
      simp only [Char.toLower]
      rw [if_neg (by omega)]
    rw [e1, e2]
    simp only [Char.toLower]
    rw [char_toNat_ofNat_small (by omega), if_pos (by constructor <;> omega)]
    have : c.toNat - 32 + 32 = c.toNat := by omega
    rw [this, Char.ofNat_toNat]
  · have e1 : c.toUpper = c := by
      simp only [Char.toUpper]
      rw [if_neg (by omega)]
    rw [e1]

/-! ## Digit-run extraction is stable under `trim` and `toUpperCase` -/

/-- Upper-casing the input does not change the digit runs (the scanner
state is always a digit run, fixed by `toUpper`). -/
theorem digitRunsGo_map_toUpper :
    ∀ l acc, digitRunsGo (l.map Char.toUpper) acc = digitRunsGo l acc := by
  intro l
  induction l with
  | nil => intro acc; rfl
  | cons c cs ih =>
    intro acc
    simp only [List.map_cons, digitRunsGo, char_isDigit_toUpper]
    by_cases hd : c.isDigit = true
    · rw [if_pos hd, if_pos hd, char_toUpper_of_isDigit c hd, ih]
    · rw [if_neg hd, if_neg hd, ih]

/-- A list with no digit at all contributes no run beyond the accumulated
one. -/
theorem digitRunsGo_nondigit (s : List Char) (hs : ∀ c ∈ s, c.isDigit = false) :
    ∀ acc, digitRunsGo s acc = if acc = [] then [] else [acc.reverse] := by
  induction s with
  | nil => intro acc; rfl
  | cons x xs ih =>
    intro acc
    have hx : x.isDigit = false := hs x (by simp)
    simp only [digitRunsGo, hx]
    rw [if_neg (by simp), ih (fun c hc => hs c (by simp [hc])), if_pos rfl,
      List.append_nil]

/-- Appending a digit-free suffix does not change the digit runs. -/
theorem digitRunsGo_append_nondigit (s : List Char)
    (hs : ∀ c ∈ s, c.isDigit = false) :
    ∀ l acc, digitRunsGo (l ++ s) acc = digitRunsGo l acc := by
  intro l
  induction l with
  | nil =>
    intro acc
    rw [List.nil_append, digitRunsGo_nondigit s hs acc]
    rfl
  | cons c cs ih =>
    intro acc
    simp only [List.cons_append, digitRunsGo]
    by_cases hd : c.isDigit = true
    · rw [if_pos hd, if_pos hd]
      exact ih (c :: acc)
    · rw [if_neg hd, if_neg hd]
      exact congrArg (fun t => (if acc = [] then [] else [acc.reverse]) ++ t) (ih [])

/-- Dropping a whitespace prefix does not change the digit runs. -/
theorem digitRunsGo_dropWhile_ws (l : List Char) :
    digitRunsGo (l.dropWhile Char.isWhitespace) [] = digitRunsGo l [] := by
  induction l with
  | nil => rfl
  | cons c cs ih =>
    by_cases hw : c.isWhitespace = true
    · rw [List.dropWhile_cons_of_pos (by simp [hw]), ih]
      have hd : c.isDigit = false := char_not_digit_of_isWhitespace c hw
      simp [digitRunsGo, hd]
    · rw [List.dropWhile_cons_of_neg (by simp [hw])]

/-- Every element of a `takeWhile` satisfies the predicate. -/
theorem mem_takeWhile_sat {p : Char → Bool} {l : List Char} :
    ∀ c ∈ l.takeWhile p, p c = true := by
  induction l with
  | nil => intro c hc; simp at hc
  | cons x xs ih =>
    intro c hc
    by_cases hx : p x = true
    · rw [List.takeWhile_cons_of_pos hx] at hc
      rcases List.mem_cons.mp hc with h | h
      · rwa [h]
      · exact ih c h
    · rw [List.takeWhile_cons_of_neg hx] at hc
      simp at hc

/-- `trim` does not change the digit runs. -/
theorem digitRuns_jsTrim (l : List Char) : digitRuns (jsTrim l) = digitRuns l := by
  set y := l.dropWhile Char.isWhitespace with hy
  have hsplit : y = jsTrim l ++ (y.reverse.takeWhile Char.isWhitespace).reverse := by
    simp only [jsTrim, ← hy]
    conv_lhs => rw [← List.reverse_reverse y,
      ← List.takeWhile_append_dropWhile (p := Char.isWhitespace) (l := y.reverse)]
    rw [List.reverse_append]
  have hws : ∀ c ∈ (y.reverse.takeWhile Char.isWhitespace).reverse, c.isDigit = false := by
    intro c hc
    exact char_not_digit_of_isWhitespace c
      (mem_takeWhile_sat c (List.mem_reverse.mp hc))
  calc digitRuns (jsTrim l)
      = digitRunsGo (jsTrim l) [] := rfl
    _ = digitRunsGo (jsTrim l ++ (y.reverse.takeWhile Char.isWhitespace).reverse) [] :=
        (digitRunsGo_append_nondigit _ hws _ _).symm
    _ = digitRunsGo y [] := by rw [← hsplit]
    _ = digitRunsGo l [] := digitRunsGo_dropWhile_ws l
    _ = digitRuns l := rfl

/-- The digit runs of the dedup-processed text (`trim` + `toUpperCase`)
are those of the raw text. -/
theorem digitRuns_dedupText (q : DbQuestion) :
    digitRuns (dedupText q) = digitRuns (q.text.getD "").data := by
  unfold dedupText jsToUpper
  calc digitRuns ((jsTrim (q.text.getD "").data).map Char.toUpper)
      = digitRunsGo ((jsTrim (q.text.getD "").data).map Char.toUpper) [] := rfl
    _ = digitRunsGo (jsTrim (q.text.getD "").data) [] := digitRunsGo_map_toUpper _ _
    _ = digitRuns (jsTrim (q.text.getD "").data) := rfl
    _ = digitRuns (q.text.getD "").data := digitRuns_jsTrim _

/-- The fingerprint of the dedup-processed text is the fingerprint of the
raw text: the candidate-side and kept-side fingerprints in
`identifyDuplicates` are directly comparable. -/
theorem fingerprint_dedupText (q : DbQuestion) :
    extractNumbersFingerprintL (dedupText q) =
      extractNumbersFingerprintL (q.text.getD "").data := by
  unfold extractNumbersFingerprintL
  rw [digitRuns_dedupText]

/-! ## The lexicographic sort order is total, transitive, antisymmetric -/

/-- Characters that are `<`-incomparable are equal. -/
theorem char_eq_of_not_lt {a b : Char} (h1 : ¬a < b) (h2 : ¬b < a) : a = b :=
  Char.le_antisymm (Char.not_lt.mp h2) (Char.not_lt.mp h1)

theorem lexLe_total : ∀ a b : List Char, lexLe a b = true ∨ lexLe b a = true := by
  intro a
  induction a with
  | nil => intro b; left; rfl
  | cons x xs ih =>
    intro b
    cases b with
    | nil => right; rfl
    | cons y ys =>
      by_cases h1 : x < y
      · left
        simp only [lexLe]
        rw [if_pos h1]
      · by_cases h2 : y < x
        · right
          simp only [lexLe]
          rw [if_pos h2]
        · have hxy : x = y := char_eq_of_not_lt h1 h2
          subst hxy
          rcases ih ys with h | h
          · left
            simp only [lexLe]
            rw [if_neg h1, if_neg h1]
            exact h
          · right
            simp only [lexLe]
            rw [if_neg h1, if_neg h1]
            exact h

theorem lexLe_antisymm :
    ∀ a b : List Char, lexLe a b = true → lexLe b a = true → a = b := by
  intro a
  induction a with
  | nil =>
    intro b _ hba
    cases b with
    | nil => rfl
    | cons y ys => simp [lexLe] at hba
  | cons x xs ih =>
    intro b hab hba
    cases b with
    | nil => simp [lexLe] at hab
    | cons y ys =>
      by_cases h1 : x < y
      · exfalso
        simp only [lexLe] at hba
        rw [if_neg (Char.lt_asymm h1), if_pos h1] at hba
        exact Bool.false_ne_true hba
      · by_cases h2 : y < x
        · exfalso
          simp only [lexLe] at hab
          rw [if_neg h1, if_pos h2] at hab
          exact Bool.false_ne_true hab
        · have hxy : x = y := char_eq_of_not_lt h1 h2
          subst hxy
          simp only [lexLe] at hab hba
          rw [if_neg h1, if_neg h1] at hab hba
          rw [ih ys hab hba]

theorem lexLe_trans :
    ∀ a b c : List Char, lexLe a b = true → lexLe b c = true → lexLe a c = true := by
  intro a
  induction a with
  | nil => intro b c _ _; rfl
  | cons x xs ih =>
    intro b c hab hbc
    cases b with
    | nil => simp [lexLe] at hab
    | cons y ys =>
      cases c with
      | nil => simp [lexLe] at hbc
      | cons z zs =>
        simp only [lexLe] at hab hbc ⊢
        by_cases h1 : x < y
        · by_cases h2 : y < z
          · rw [if_pos (Char.lt_trans h1 h2)]
          · by_cases h3 : z < y
            · exfalso
              rw [if_neg h2, if_pos h3] at hbc
              exact Bool.false_ne_true hbc
            · have : y = z := char_eq_of_not_lt h2 h3
              subst this
              rw [if_pos h1]
        · by_cases h1' : y < x
          · exfalso
            rw [if_neg h1, if_pos h1'] at hab
            exact Bool.false_ne_true hab
          · have : x = y := char_eq_of_not_lt h1 h1'
            subst this
            rw [if_neg h1, if_neg h1] at hab
            by_cases h2 : x < z
            · rw [if_pos h2]
            · by_cases h3 : z < x
              · exfalso
                rw [if_neg h2, if_pos h3] at hbc
                exact Bool.false_ne_true hbc
              · have : x = z := char_eq_of_not_lt h2 h3
                subst this
                rw [if_neg h2, if_neg h2] at hbc ⊢
                exact ih ys zs hab hbc

instance : IsTotal (List Char) LexLe := ⟨lexLe_total⟩

instance : IsTrans (List Char) LexLe := ⟨lexLe_trans⟩

instance : IsAntisymm (List Char) LexLe := ⟨lexLe_antisymm⟩

/-! ## Digit runs are nonempty, all-digit, comma-free -/

theorem digitRunsGo_wellFormed :
    ∀ (l acc : List Char), (∀ c ∈ acc, c.isDigit = true) →
      ∀ r ∈ digitRunsGo l acc, r ≠ [] ∧ ∀ c ∈ r, c.isDigit = true := by
  intro l
  induction l with
  | nil =>
    intro acc hacc r hr
    simp only [digitRunsGo] at hr
    by_cases ha : acc = []
    · rw [if_pos ha] at hr
      simp at hr
    · rw [if_neg ha] at hr
      have : r = acc.reverse := by simpa using hr
      subst this
      refine ⟨by simpa using ha, ?_⟩
      intro c hc
      exact hacc c (List.mem_reverse.mp hc)
  | cons c cs ih =>
    intro acc hacc r hr
    simp only [digitRunsGo] at hr
    by_cases hd : c.isDigit = true
    · rw [if_pos hd] at hr
      exact ih (c :: acc) (by
        intro d hdmem
        rcases List.mem_cons.mp hdmem with h | h
        · rwa [h]
        · exact hacc d h) r hr
    · rw [if_neg hd] at hr
      rcases List.mem_append.mp hr with h | h
      · by_cases ha : acc = []
        · rw [if_pos ha] at h
          simp at h
        · rw [if_neg ha] at h
          have : r = acc.reverse := by simpa using h
          subst this
          refine ⟨by simpa using ha, ?_⟩
          intro d hdm
          exact hacc d (List.mem_reverse.mp hdm)
      · exact ih [] (by simp) r h

/-- Every run produced by `digitRuns` is nonempty and all-digit. -/
theorem digitRuns_wellFormed (l : List Char) :
    ∀ r ∈ digitRuns l, r ≠ [] ∧ ∀ c ∈ r, c.isDigit = true :=
  digitRunsGo_wellFormed l [] (by simp)

theorem comma_not_digit : (',').isDigit = false := by decide

/-- An all-digit run contains no comma. -/
theorem comma_not_mem_of_digit {r : List Char} (h : ∀ c ∈ r, c.isDigit = true) :
    ',' ∉ r := by
  intro hc
  have := h ',' hc
  rw [comma_not_digit] at this
  exact Bool.false_ne_true this

/-! ## `joinComma` is injective on lists of nonempty comma-free runs -/

/-- `joinComma` of a nonempty list of nonempty runs is nonempty. -/
theorem joinComma_ne_nil :
    ∀ rs : List (List Char), rs ≠ [] → (∀ r ∈ rs, r ≠ []) → joinComma rs ≠ [] := by
  intro rs
  match rs with
  | [] => intro h _; exact absurd rfl h
  | [r] =>
    intro _ hr
    simpa [joinComma] using hr r (by simp)
  | r :: r2 :: rest =>
    intro _ _
    simp [joinComma]

/-- Cancelling the first comma-free block before a comma. -/
theorem comma_split_inj :
    ∀ (r1 r2 t1 t2 : List Char), ',' ∉ r1 → ',' ∉ r2 →
      r1 ++ ',' :: t1 = r2 ++ ',' :: t2 → r1 = r2 ∧ t1 = t2 := by
  intro r1
  induction r1 with
  | nil =>
    intro r2 t1 t2 _ hc2 h
    cases r2 with
    | nil => simpa using h
    | cons y ys =>
      exfalso
      simp only [List.nil_append, List.cons_append, List.cons.injEq] at h
      exact hc2 (h.1 ▸ List.mem_cons_self y ys)
  | cons x xs ih =>
    intro r2 t1 t2 hc1 hc2 h
    cases r2 with
    | nil =>
      exfalso
      simp only [List.nil_append, List.cons_append, List.cons.injEq] at h
      exact hc1 (h.1 ▸ List.mem_cons_self x xs)
    | cons y ys =>
      simp only [List.cons_append, List.cons.injEq] at h
      obtain ⟨hxy, hrest⟩ := h
      subst hxy
      have := ih ys t1 t2 (fun hm => hc1 (List.mem_cons_of_mem _ hm))
        (fun hm => hc2 (List.mem_cons_of_mem _ hm)) hrest
      exact ⟨by rw [this.1], this.2⟩

/-- `joinComma` is injective on lists of nonempty, comma-free runs. -/
theorem joinComma_inj :
    ∀ rs1 rs2 : List (List Char),
      (∀ r ∈ rs1, r ≠ [] ∧ ',' ∉ r) → (∀ r ∈ rs2, r ≠ [] ∧ ',' ∉ r) →
      joinComma rs1 = joinComma rs2 → rs1 = rs2 := by
  intro rs1
  induction rs1 with
  | nil =>
    intro rs2 _ h2 h
    by_contra hne
    exact joinComma_ne_nil rs2 (fun he => hne (he ▸ rfl))
      (fun r hr => (h2 r hr).1) (by simpa [joinComma] using h.symm)
  | cons r1 rest1 ih =>
    intro rs2 h1 h2 h
    cases rs2 with
    | nil =>
      exfalso
      exact joinComma_ne_nil (r1 :: rest1) (by simp)
        (fun r hr => (h1 r hr).1) (by simpa [joinComma] using h)
    | cons r2 rest2 =>
      cases rest1 with
      | nil =>
        cases rest2 with
        | nil =>
          simp only [joinComma] at h
          rw [h]
        | cons b rest2' =>
          exfalso
          simp only [joinComma] at h
          exact (h1 r1 (by simp)).2
            (h ▸ List.mem_append_right r2 (List.mem_cons_self ',' _))
      | cons a rest1' =>
        cases rest2 with
        | nil =>
          exfalso
          simp only [joinComma] at h
          exact (h2 r2 (by simp)).2
            (h.symm ▸ List.mem_append_right r1 (List.mem_cons_self ',' _))
        | cons b rest2' =>
          simp only [joinComma] at h
          have hsplit := comma_split_inj r1 r2 _ _
            (h1 r1 (by simp)).2 (h2 r2 (by simp)).2 h
          have htail := ih (b :: rest2')
            (fun r hr => h1 r (List.mem_cons_of_mem _ hr))
            (fun r hr => h2 r (List.mem_cons_of_mem _ hr)) hsplit.2
          rw [hsplit.1, htail]

/-! ## Deduplication: trace agreement and guard lemmas -/

/-- `identifyDuplicates` flags exactly the first components of the
instrumented trace's matched pairs. -/
theorem identifyDuplicatesGo_eq_trace :
    ∀ (l us : List DbQuestion),
      identifyDuplicatesGo us l = (dedupTraceGo us l).2.map (fun p => p.1.id) := by
  intro l
  induction l with
  | nil => intro us; rfl
  | cons q rest ih =>
    intro us
    simp only [identifyDuplicatesGo, dedupTraceGo]
    by_cases hlen : (dedupText q).length < 5
    · rw [if_pos hlen, if_pos hlen, ih]
    · rw [if_neg hlen, if_neg hlen]
      cases hfind : us.find?
          (isDupOf (dedupText q) (extractNumbersFingerprintL (dedupText q)) q.subject) with
      | none =>
        have hany : us.any
            (isDupOf (dedupText q) (extractNumbersFingerprintL (dedupText q)) q.subject)
            = false := by
          rw [← Bool.not_eq_true, List.any_eq_true]
          rintro ⟨x, hx, hpx⟩
          exact (List.find?_eq_none.mp hfind x hx) hpx
        rw [hany]
        simp only [Bool.false_eq_true, if_neg (Bool.false_ne_true)]
        exact ih (us ++ [q])
      | some u =>
        have hany : us.any
            (isDupOf (dedupText q) (extractNumbersFingerprintL (dedupText q)) q.subject)
            = true :=
          List.any_eq_true.mpr ⟨u, List.mem_of_find?_eq_some hfind,
            List.find?_some hfind⟩
        rw [hany, if_pos rfl]
        simp only [List.map_cons]
        rw [ih us]

/-- Every matched pair of the trace satisfies the inner-loop duplicate
test: the second component is the kept item the candidate matched. -/
theorem dedupTraceGo_matches :
    ∀ (l us : List DbQuestion) (p : DbQuestion × DbQuestion),
      p ∈ (dedupTraceGo us l).2 →
      isDupOf (dedupText p.1) (extractNumbersFingerprintL (dedupText p.1))
        p.1.subject p.2 = true := by
  intro l
  induction l with
  | nil =>
    intro us p hp
    simp [dedupTraceGo] at hp
  | cons q rest ih =>
    intro us p hp
    simp only [dedupTraceGo] at hp
    by_cases hlen : (dedupText q).length < 5
    · rw [if_pos hlen] at hp
      exact ih us p hp
    · rw [if_neg hlen] at hp
      cases hfind : us.find?
          (isDupOf (dedupText q) (extractNumbersFingerprintL (dedupText q)) q.subject) with
      | none =>
        rw [hfind] at hp
        exact ih (us ++ [q]) p hp
      | some u =>
        rw [hfind] at hp
        simp only [List.mem_cons] at hp
        rcases hp with hp | hp
        · subst hp
          exact List.find?_some hfind
        · exact ih us p hp

/-- A successful inner-loop duplicate test implies that the candidate's
fingerprint equals the kept item's fingerprint (the number guard). -/
theorem isDupOf_fingerprint {text qNums : List Char} {qs : Option Subject}
    {u : DbQuestion} (h : isDupOf text qNums qs u = true) :
    qNums = extractNumbersFingerprintL (u.text.getD "").data := by
  unfold isDupOf at h
  by_cases hfp : qNums = extractNumbersFingerprintL (u.text.getD "").data
  · exact hfp
  · exfalso
    split at h <;> simp_all

/-- A matched pair has equal raw-text fingerprints. -/
theorem dedupTrace_matched_fingerprints {qs : List DbQuestion}
    {x y : DbQuestion} (hm : (x, y) ∈ (dedupTrace qs).2) :
    extractNumbersFingerprint (x.text.getD "") =
      extractNumbersFingerprint (y.text.getD "") := by
  have h1 := dedupTraceGo_matches qs [] (x, y) hm
  have h2 := isDupOf_fingerprint h1
  have h3 := fingerprint_dedupText x
  unfold extractNumbersFingerprint
  exact congrArg String.mk (h3 ▸ h2)

/-! ## Theorems for C10 and C3 -/

/-- **C10.** Marking a question "too hard" updates its stored difficulty
to `min 5 (difficultyLevel + 1)`: the difficulty increases by exactly one
when below 5, and the escalation never stores a difficulty above 5. -/
theorem markQuestionTooHard_clamps (store : String → Option Int)
    (id : String) (d : Int) (hid : (store id).isSome) :
    markQuestionTooHard store id d id = some (min 5 (d + 1)) ∧
    (d < 5 → markQuestionTooHard store id d id = some (d + 1)) ∧
    (∀ d', markQuestionTooHard store id d id = some d' → d' ≤ 5) := by
  obtain ⟨v, hv⟩ := Option.isSome_iff_exists.mp hid
  refine ⟨?_, ?_, ?_⟩
  · simp [markQuestionTooHard, updateQuestionDifficulty, hv]
  · intro hlt
    have : min 5 (d + 1) = d + 1 := min_eq_right (by omega)
    simp [markQuestionTooHard, updateQuestionDifficulty, hv, this]
  · intro d' h
    simp [markQuestionTooHard, updateQuestionDifficulty, hv] at h
    omega

/-- Witness for `markQuestionTooHard_clamps` at a concrete store holding
difficulty 3 under id `"q1"`. -/
theorem markQuestionTooHard_clamps_witness :
    markQuestionTooHard (fun k => if k = "q1" then some 3 else none) "q1" 3 "q1"
      = some (min 5 (3 + 1)) :=
  (markQuestionTooHard_clamps (fun k => if k = "q1" then some 3 else none)
    "q1" 3 (by decide)).1

/-- **C3.** `ensureBufferFilled` dispatches exactly
`max 0 (5 - (queueLength + inFlight))` synthesis requests (in particular
exactly 2 when the queue holds 2 items with 1 in flight, and zero when
`queueLength + inFlight ≥ 5`), and it is idempotent: run again on the
state it produced, with no buffer mutation in between, it dispatches zero
additional requests. -/
theorem ensureBufferFilled_count_and_idempotent (s : BufferFillState)
    (h5 : 5 ≤ s.bufferLen + s.inflight) :
    (∀ t : BufferFillState,
      ((ensureBufferFilled t).2 : Int) = max 0 (5 - (t.bufferLen + t.inflight))) ∧
    (ensureBufferFilled ⟨2, 1⟩).2 = 2 ∧
    (ensureBufferFilled s).2 = 0 ∧
    ∀ t : BufferFillState, (ensureBufferFilled (ensureBufferFilled t).1).2 = 0 := by
  refine ⟨?_, by decide, ?_, ?_⟩
  · intro t
    by_cases h : neededCount t ≤ 0
    · simp only [ensureBufferFilled, if_pos h]
      simp only [neededCount, BUFFER_TARGET_SIZE] at h ⊢
      omega
    · simp only [ensureBufferFilled, if_neg h]
      simp only [neededCount, BUFFER_TARGET_SIZE] at h ⊢
      omega
  · have h : neededCount s ≤ 0 := by
      simp only [neededCount, BUFFER_TARGET_SIZE]
      omega
    simp [ensureBufferFilled, if_pos h]
  · intro t
    by_cases h : neededCount t ≤ 0
    · simp [ensureBufferFilled, if_pos h]
    · simp only [ensureBufferFilled, if_neg h]
      have h2 : neededCount { t with inflight := t.inflight + (neededCount t).toNat } ≤ 0 := by
        simp only [neededCount, BUFFER_TARGET_SIZE] at h ⊢
        omega
      simp [ensureBufferFilled, if_pos h2]

/-- Witness for `ensureBufferFilled_count_and_idempotent` at the state
with 2 queued and 1 in flight (the hypothesis is discharged at the full
state with 5 queued, 0 in flight). -/
theorem ensureBufferFilled_count_witness :
    ((ensureBufferFilled ⟨2, 1⟩).2 : Int) = max 0 (5 - ((2 : Nat) + (1 : Nat))) :=
  (ensureBufferFilled_count_and_idempotent ⟨5, 0⟩ (by decide)).1 ⟨2, 1⟩

/-! ## Similarity threshold, natural-number reformulation -/

/-- The strict 0.85-threshold comparison on a similarity score, restated
over natural numbers (for concrete evaluation: the rational arithmetic
itself does not reduce in the kernel). -/
theorem getSimilarityL_gt_iff (s1 s2 : List Char) (L ed : Nat)
    (hL : L = (if s1.length < s2.length then s2 else s1).length)
    (hed : ed = editDistanceL (if s1.length < s2.length then s2 else s1)
        (if s1.length < s2.length then s1 else s2)) :
    (getSimilarityL s1 s2 > 85 / 100) ↔ (L = 0 ∨ 85 * L + 100 * ed < 100 * L) := by
  simp only [getSimilarityL]
  rw [← hL, ← hed]
  by_cases hL0 : L = 0
  · rw [if_pos hL0]
    constructor
    · intro _; exact Or.inl hL0
    · intro _; norm_num
  · rw [if_neg hL0]
    have hLpos : (0 : ℚ) < L := by positivity
    rw [gt_iff_lt, div_lt_div_iff₀ (by norm_num) hLpos]
    constructor
    · intro h
      right
      have h' : (85 * L : ℤ) < ((L : ℤ) - ed) * 100 := by exact_mod_cast h
      omega
    · rintro (h | h)
      · exact absurd h hL0
      · have h' : (85 * L : ℤ) < ((L : ℤ) - ed) * 100 := by omega
        exact_mod_cast h'

/-! ## Claim C1: different fingerprints are never duplicates -/

/-- **C1.** For every batch and every pair of items in it whose texts
have different numeric fingerprints, `identifyDuplicates` never flags
either item as a duplicate of the other, regardless of textual
similarity: the flagged ids are exactly the first components of the
matched pairs of the instrumented run, and no matched pair (in either
order) joins two items with different fingerprints. -/
theorem identifyDuplicates_fingerprint_guard (qs : List DbQuestion)
    (a b : DbQuestion)
    (h : extractNumbersFingerprint (a.text.getD "") ≠
      extractNumbersFingerprint (b.text.getD "")) :
    identifyDuplicates qs = (dedupTrace qs).2.map (fun p => p.1.id) ∧
    (a, b) ∉ (dedupTrace qs).2 ∧ (b, a) ∉ (dedupTrace qs).2 := by
  refine ⟨identifyDuplicatesGo_eq_trace qs [], ?_, ?_⟩
  · intro hm
    exact h (dedupTrace_matched_fingerprints hm)
  · intro hm
    exact h (dedupTrace_matched_fingerprints hm).symm

/-- Witness for `identifyDuplicates_fingerprint_guard`: the two
highly-similar arithmetic texts `"VAD BLIR 1+1?"` and `"VAD BLIR 2+2?"`
(fingerprints `"1,1"` vs `"2,2"`) are never matched to one another. -/
theorem identifyDuplicates_fingerprint_guard_witness :
    (({ id := "qa", text := some "VAD BLIR 1+1?", subject := some .MATH },
      ({ id := "qb", text := some "VAD BLIR 2+2?", subject := some .MATH } : DbQuestion)) ∉
      (dedupTrace [{ id := "qa", text := some "VAD BLIR 1+1?", subject := some .MATH },
        { id := "qb", text := some "VAD BLIR 2+2?", subject := some .MATH }]).2) :=
  (identifyDuplicates_fingerprint_guard
    [{ id := "qa", text := some "VAD BLIR 1+1?", subject := some .MATH },
     { id := "qb", text := some "VAD BLIR 2+2?", subject := some .MATH }]
    { id := "qa", text := some "VAD BLIR 1+1?", subject := some .MATH }
    { id := "qb", text := some "VAD BLIR 2+2?", subject := some .MATH }
    (by decide)).2.1

/-! ## Claim C2: identical fingerprints above threshold flag the later
(corrected: the pairwise statement holds for the pair batch, not inside
arbitrary larger batches) -/

/-- **C2, counterexample.**  In a larger batch the pairwise claim fails:
`"AAAAAAAAAB"` and `"AAAAAAAAAC"` form a pair with equal fingerprints,
the same category, non-degenerate texts and similarity 0.9 > 0.85, yet
`identifyDuplicates` flags *both* of them (each is a duplicate of the
earlier kept item `"AAAAAAAAAA"`), contradicting "never both". -/
theorem identifyDuplicates_both_flagged :
    5 ≤ (dedupText ⟨"a", some "AAAAAAAAAB", some Subject.MATH⟩).length ∧
    5 ≤ (dedupText ⟨"b", some "AAAAAAAAAC", some Subject.MATH⟩).length ∧
    extractNumbersFingerprint "AAAAAAAAAB" = extractNumbersFingerprint "AAAAAAAAAC" ∧
    getSimilarityL
      (dedupText { id := "b", text := some "AAAAAAAAAC", subject := some Subject.MATH })
      (jsToUpper ("AAAAAAAAAB" : String).data) > 85 / 100 ∧
    identifyDuplicates
      [{ id := "x", text := some "AAAAAAAAAA", subject := some Subject.MATH },
       { id := "a", text := some "AAAAAAAAAB", subject := some Subject.MATH },
       { id := "b", text := some "AAAAAAAAAC", subject := some Subject.MATH }]
      = ["a", "b"] := by
  have hax : isDupOf
      (dedupText { id := "a", text := some "AAAAAAAAAB", subject := some Subject.MATH })
      (extractNumbersFingerprintL
        (dedupText { id := "a", text := some "AAAAAAAAAB", subject := some Subject.MATH }))
      (some Subject.MATH)
      { id := "x", text := some "AAAAAAAAAA", subject := some Subject.MATH } = true := by
    unfold isDupOf
    rw [if_neg (by decide), if_neg (by decide)]
    exact decide_eq_true
      ((getSimilarityL_gt_iff _ _ 10 1 (by decide) (by decide)).mpr (by decide))
  have hbx : isDupOf
      (dedupText { id := "b", text := some "AAAAAAAAAC", subject := some Subject.MATH })
      (extractNumbersFingerprintL
        (dedupText { id := "b", text := some "AAAAAAAAAC", subject := some Subject.MATH }))
      (some Subject.MATH)
      { id := "x", text := some "AAAAAAAAAA", subject := some Subject.MATH } = true := by
    unfold isDupOf
    rw [if_neg (by decide), if_neg (by decide)]
    exact decide_eq_true
      ((getSimilarityL_gt_iff _ _ 10 1 (by decide) (by decide)).mpr (by decide))
  refine ⟨by decide, by decide, by decide,
    (getSimilarityL_gt_iff _ _ 10 1 (by decide) (by decide)).mpr (by decide), ?_⟩
  simp only [identifyDuplicates, identifyDuplicatesGo, List.any_cons, List.any_nil,
    List.nil_append, Bool.or_false, hax, hbx]
  simp [show ¬((dedupText ⟨"x", some "AAAAAAAAAA", some Subject.MATH⟩).length < 5) from
      by decide,
    show ¬((dedupText ⟨"a", some "AAAAAAAAAB", some Subject.MATH⟩).length < 5) from
      by decide,
    show ¬((dedupText ⟨"b", some "AAAAAAAAAC", some Subject.MATH⟩).length < 5) from
      by decide, hax, hbx]

/-- **C2 (amended).** For a batch consisting of exactly a pair with
identical fingerprints, the same category, non-degenerate texts and
similarity above the 0.85 threshold, `identifyDuplicates` flags exactly
the later one (never both, never neither), and the earlier one survives
as the kept canonical item. -/
theorem identifyDuplicates_pair_flags_later (a b : DbQuestion)
    (hsub : a.subject = b.subject)
    (ha : 5 ≤ (dedupText a).length) (hb : 5 ≤ (dedupText b).length)
    (hfp : extractNumbersFingerprint (a.text.getD "") =
      extractNumbersFingerprint (b.text.getD ""))
    (hsim : getSimilarityL (dedupText b) (jsToUpper (a.text.getD "").data) > 85 / 100) :
    identifyDuplicates [a, b] = [b.id] ∧ (dedupTrace [a, b]).1 = [a] := by
  have hfpL : extractNumbersFingerprintL (a.text.getD "").data =
      extractNumbersFingerprintL (b.text.getD "").data := congrArg String.data hfp
  have hmismatch : ¬((match a.subject, b.subject with
      | some us, some qs => us != qs
      | _, _ => false) = true) := by
    rw [← hsub]
    cases a.subject <;> simp
  have hpred : isDupOf (dedupText b) (extractNumbersFingerprintL (dedupText b))
      b.subject a = true := by
    unfold isDupOf
    rw [if_neg hmismatch,
      if_neg (not_not_intro ((fingerprint_dedupText b).trans hfpL.symm))]
    exact decide_eq_true hsim
  have hla : ¬((dedupText a).length < 5) := by omega
  have hlb : ¬((dedupText b).length < 5) := by omega
  constructor
  · simp [identifyDuplicates, identifyDuplicatesGo, hla, hlb, hpred]
  · simp [dedupTrace, dedupTraceGo, hla, hlb,
      List.find?_cons_of_pos _ hpred]

/-- Witness for `identifyDuplicates_pair_flags_later`: texts
`"ABCDEFGHIJ"` and `"ABCDEFGHIK"` (no digits, similarity 0.9) in the same
category — exactly the later id `"qb"` is flagged. -/
theorem identifyDuplicates_pair_flags_later_witness :
    identifyDuplicates [{ id := "qa", text := some "ABCDEFGHIJ", subject := some .MATH },
      { id := "qb", text := some "ABCDEFGHIK", subject := some .MATH }] = ["qb"] :=
  (identifyDuplicates_pair_flags_later
    { id := "qa", text := some "ABCDEFGHIJ", subject := some .MATH }
    { id := "qb", text := some "ABCDEFGHIK", subject := some .MATH }
    rfl (by decide) (by decide) (by decide)
    ((getSimilarityL_gt_iff _ _ 10 1 (by decide) (by decide)).mpr
      (by decide))).1

/-! ## Claim C7: fingerprint canonicity (corrected: lexicographic sort) -/

/-- **C7, counterexample.**  The source sorts the digit runs with the JS
default (lexicographic) comparator, not numerically: on `"9 10"` the code
produces `"10,9"` while the claimed numeric ascending order yields
`"9,10"`. -/
theorem extractNumbersFingerprint_not_numeric :
    extractNumbersFingerprint "9 10" = "10,9" ∧
    fingerprintSpec "9 10" = "9,10" ∧
    extractNumbersFingerprint "9 10" ≠ fingerprintSpec "9 10" := by
  refine ⟨by decide, ?_, ?_⟩ <;> decide

/-- **C7 (amended).** `fingerprint(text)` is the canonical string
obtained by extracting every maximal digit run in the text, sorting the
runs lexicographically as strings (the JS default sort), and joining them
with `','`; two texts get equal fingerprints exactly when their multisets
of digit runs coincide. -/
theorem extractNumbersFingerprint_canonical (t1 t2 : String) :
    extractNumbersFingerprint t1 = extractNumbersFingerprint t2 ↔
      (digitRuns t1.data).Perm (digitRuns t2.data) := by
  have wf1 := digitRuns_wellFormed t1.data
  have wf2 := digitRuns_wellFormed t2.data
  have sortWf : ∀ (l : List Char), ∀ r ∈ jsSort (digitRuns l), r ≠ [] ∧ ',' ∉ r := by
    intro l r hr
    have hmem : r ∈ digitRuns l :=
      (List.perm_insertionSort LexLe (digitRuns l)).mem_iff.mp hr
    have := digitRuns_wellFormed l r hmem
    exact ⟨this.1, comma_not_mem_of_digit this.2⟩
  constructor
  · intro h
    have hL : extractNumbersFingerprintL t1.data = extractNumbersFingerprintL t2.data :=
      congrArg String.data h
    unfold extractNumbersFingerprintL at hL
    by_cases h1 : digitRuns t1.data = []
    · by_cases h2 : digitRuns t2.data = []
      · rw [h1, h2]
      · exfalso
        rw [if_pos h1, if_neg h2] at hL
        refine joinComma_ne_nil (jsSort (digitRuns t2.data)) ?_ ?_ hL.symm
        · intro he
          exact h2 (List.Perm.eq_nil
            (he ▸ (List.perm_insertionSort LexLe (digitRuns t2.data)).symm))
        · intro r hr
          exact (sortWf t2.data r hr).1
    · by_cases h2 : digitRuns t2.data = []
      · exfalso
        rw [if_neg h1, if_pos h2] at hL
        refine joinComma_ne_nil (jsSort (digitRuns t1.data)) ?_ ?_ hL
        · intro he
          exact h1 (List.Perm.eq_nil
            (he ▸ (List.perm_insertionSort LexLe (digitRuns t1.data)).symm))
        · intro r hr
          exact (sortWf t1.data r hr).1
      · rw [if_neg h1, if_neg h2] at hL
        have hsorteq : jsSort (digitRuns t1.data) = jsSort (digitRuns t2.data) :=
          joinComma_inj _ _ (sortWf t1.data) (sortWf t2.data) hL
        have p1 : (digitRuns t1.data).Perm (jsSort (digitRuns t1.data)) :=
          (List.perm_insertionSort LexLe (digitRuns t1.data)).symm
        rw [hsorteq] at p1
        exact p1.trans (List.perm_insertionSort LexLe (digitRuns t2.data))
  · intro h
    have hsorteq : jsSort (digitRuns t1.data) = jsSort (digitRuns t2.data) := by
      apply List.eq_of_perm_of_sorted (r := LexLe)
      · exact (List.perm_insertionSort LexLe (digitRuns t1.data)).trans
          (h.trans (List.perm_insertionSort LexLe (digitRuns t2.data)).symm)
      · exact List.sorted_insertionSort LexLe (digitRuns t1.data)
      · exact List.sorted_insertionSort LexLe (digitRuns t2.data)
    unfold extractNumbersFingerprint extractNumbersFingerprintL
    by_cases h1 : digitRuns t1.data = []
    · have h2 : digitRuns t2.data = [] := List.Perm.eq_nil (h1 ▸ h.symm)
      rw [h1, h2]
    · have h2 : digitRuns t2.data ≠ [] := by
        intro h2
        exact h1 (List.Perm.eq_nil (h2 ▸ h))
      rw [if_neg h1, if_neg h2, hsorteq]

/-! ## The `editDistance` dynamic program computes Levenshtein distance -/

theorem levNat_zero (t1 t2 : List Char) (j : Nat) : levNat t1 t2 0 j = j := by
  simp [levNat]

theorem levNat_succ_zero (t1 t2 : List Char) (i : Nat) : levNat t1 t2 (i + 1) 0 = i + 1 := by
  simp [levNat]

theorem levNat_succ_succ (t1 t2 : List Char) (i j : Nat) :
    levNat t1 t2 (i + 1) (j + 1) =
      if t1.getD i default = t2.getD j default then levNat t1 t2 i j
      else 1 + min (levNat t1 t2 i j) (min (levNat t1 t2 (i + 1) j) (levNat t1 t2 i (j + 1))) := by
  rw [levNat]

/-- The DP distance on prefixes is bounded by the longer prefix length. -/
theorem levNat_le_max (t1 t2 : List Char) : ∀ i j, levNat t1 t2 i j ≤ max i j := by
  intro i
  induction i with
  | zero => intro j; rw [levNat_zero]; omega
  | succ i ihi =>
    intro j
    induction j with
    | zero => rw [levNat_succ_zero]; omega
    | succ j ihj =>
      rw [levNat_succ_succ]
      split
      · have := ihi j; omega
      · have h1 := ihi j
        have h2 : min (levNat t1 t2 i j) (min (levNat t1 t2 (i + 1) j) (levNat t1 t2 i (j + 1)))
            ≤ levNat t1 t2 i j := Nat.min_le_left _ _
        omega

/-- The DP distance is symmetric in its two inputs. -/
theorem levNat_symm (t1 t2 : List Char) : ∀ i j, levNat t1 t2 i j = levNat t2 t1 j i := by
  intro i
  induction i with
  | zero =>
    intro j
    cases j with
    | zero => rw [levNat_zero, levNat_zero]
    | succ j => rw [levNat_zero, levNat_succ_zero]
  | succ i ihi =>
    intro j
    induction j with
    | zero => rw [levNat_succ_zero, levNat_zero]
    | succ j ihj =>
      rw [levNat_succ_succ, levNat_succ_succ]
      by_cases hc : t1.getD i default = t2.getD j default
      · rw [if_pos hc, if_pos hc.symm]
        exact ihi j
      · rw [if_neg hc, if_neg (fun h => hc h.symm)]
        rw [ihi j, ihi (j + 1), ihj,
          Nat.min_comm (levNat t2 t1 j (i + 1)) (levNat t2 t1 (j + 1) i)]

theorem getD_set_nat (l : List Nat) (i j a : Nat) :
    (l.set i a).getD j 0 = if i = j ∧ i < l.length then a else l.getD j 0 := by
  rw [List.getD_eq_getElem?_getD, List.getD_eq_getElem?_getD, List.getElem?_set]
  by_cases h : i = j
  · subst h
    by_cases h2 : i < l.length
    · simp [h2]
    · simp [h2, List.getElem?_eq_none (by omega : l.length ≤ i)]
  · simp [h]

theorem edStep_inner_inv (t1 t2 : List Char) (i' : Nat) (costs : List Nat)
    (hlen : costs.length = t2.length + 1)
    (hcosts : ∀ j, j ≤ t2.length → costs.getD j 0 = levNat t1 t2 i' j) :
    ∀ k, k ≤ t2.length →
      ((List.range k).foldl (edStep (t1.getD i' default) t2) (i' + 1, costs)).1
        = levNat t1 t2 (i' + 1) k ∧
      ((List.range k).foldl (edStep (t1.getD i' default) t2) (i' + 1, costs)).2.length
        = t2.length + 1 ∧
      ∀ j, j ≤ t2.length →
        ((List.range k).foldl (edStep (t1.getD i' default) t2) (i' + 1, costs)).2.getD j 0
          = if j < k then levNat t1 t2 (i' + 1) j else levNat t1 t2 i' j := by
  intro k
  induction k with
  | zero =>
    intro _
    refine ⟨by simp [levNat_succ_zero], by simpa using hlen, ?_⟩
    intro j hj
    simp only [List.range_zero, List.foldl_nil]
    rw [if_neg (by omega)]
    exact hcosts j hj
  | succ k ih =>
    intro hk1
    have hk : k ≤ t2.length := by omega
    obtain ⟨ih1, ih2, ih3⟩ := ih hk
    rw [List.range_succ, List.foldl_append, List.foldl_cons, List.foldl_nil]
    set st := (List.range k).foldl (edStep (t1.getD i' default) t2) (i' + 1, costs)
      with hst
    have hnv : st.2.getD k 0 = levNat t1 t2 i' k := by
      rw [ih3 k hk, if_neg (by omega)]
    have hnext : st.2.getD (k + 1) 0 = levNat t1 t2 i' (k + 1) := by
      rw [ih3 (k + 1) hk1, if_neg (by omega)]
    simp only [edStep, Nat.add_sub_cancel]
    refine ⟨?_, ?_, ?_⟩
    · rw [hnv, hnext, ih1, levNat_succ_succ]
      by_cases hc : t1.getD i' default = t2.getD k default
      · rw [if_neg (by simpa using hc), if_pos hc]
      · rw [if_pos (by simpa using hc), if_neg hc,
          Nat.min_assoc, Nat.add_comm]
    · rw [List.length_set, ih2]
    · intro j hj
      rw [getD_set_nat]
      by_cases hjk : k = j
      · subst hjk
        rw [if_pos ⟨rfl, by omega⟩, ih1, if_pos (by omega)]
      · rw [if_neg (by simp [hjk]), ih3 j hj]
        by_cases hlt : j < k
        · rw [if_pos hlt, if_pos (by omega)]
        · rw [if_neg hlt, if_neg (by omega)]

theorem edRow_spec (t1 t2 : List Char) (i' : Nat) (costs : List Nat)
    (hlen : costs.length = t2.length + 1)
    (hcosts : ∀ j, j ≤ t2.length → costs.getD j 0 = levNat t1 t2 i' j) :
    (edRow t1 t2 costs (i' + 1)).length = t2.length + 1 ∧
    ∀ j, j ≤ t2.length →
      (edRow t1 t2 costs (i' + 1)).getD j 0 = levNat t1 t2 (i' + 1) j := by
  obtain ⟨h1, h2, h3⟩ := edStep_inner_inv t1 t2 i' costs hlen hcosts t2.length le_rfl
  simp only [edRow, if_neg (Nat.succ_ne_zero i'), Nat.add_sub_cancel]
  constructor
  · rw [List.length_set, h2]
  · intro j hj
    rw [getD_set_nat]
    by_cases hje : t2.length = j
    · subst hje
      rw [if_pos ⟨rfl, by omega⟩, h1]
    · rw [if_neg (by simp [hje]), h3 j hj, if_pos (by omega)]

theorem edCosts_prefix_spec (t1 t2 : List Char) :
    ∀ i, ((List.range (i + 1)).foldl (edRow t1 t2) []).length = t2.length + 1 ∧
      ∀ j, j ≤ t2.length →
        ((List.range (i + 1)).foldl (edRow t1 t2) []).getD j 0 = levNat t1 t2 i j := by
  intro i
  induction i with
  | zero =>
    rw [show List.range (0 + 1) = [0] by rfl, List.foldl_cons, List.foldl_nil]
    constructor
    · simp [edRow]
    · intro j hj
      rw [show edRow t1 t2 [] 0 = List.range (t2.length + 1) from by simp [edRow],
        List.getD_eq_getElem?_getD, List.getElem?_range (by omega), levNat_zero]
      rfl
  | succ i ih =>
    rw [List.range_succ, List.foldl_append, List.foldl_cons, List.foldl_nil]
    exact edRow_spec t1 t2 i _ ih.1 ih.2


/-- The source's `editDistance` computes the Levenshtein distance of the
lowercased inputs. -/
theorem editDistanceL_eq_levenshtein (l1 l2 : List Char) :
    editDistanceL l1 l2 = levenshtein (l1.map Char.toLower) (l2.map Char.toLower) := by
  obtain ⟨h1, h2⟩ := edCosts_prefix_spec (l1.map Char.toLower) (l2.map Char.toLower)
    (l1.map Char.toLower).length
  simp only [editDistanceL, edCosts, levenshtein]
  exact h2 _ le_rfl

/-- `editDistance` is unchanged by pre-lowercasing (it lowercases
internally and lowercasing is idempotent). -/
theorem editDistanceL_map_toLower (a b : List Char) :
    editDistanceL (a.map Char.toLower) (b.map Char.toLower) = editDistanceL a b := by
  simp only [editDistanceL, List.map_map, Function.comp_def]
  rw [List.map_congr_left (fun c _ => char_toLower_toLower c),
    List.map_congr_left (fun c _ => char_toLower_toLower c)]

/-- `editDistance` is unchanged by pre-uppercasing. -/
theorem editDistanceL_map_toUpper (a b : List Char) :
    editDistanceL (a.map Char.toUpper) (b.map Char.toUpper) = editDistanceL a b := by
  simp only [editDistanceL, List.map_map, Function.comp_def]
  rw [List.map_congr_left (fun c _ => char_toLower_toUpper c),
    List.map_congr_left (fun c _ => char_toLower_toUpper c)]

/-- `getSimilarity` is invariant under any per-character map that
preserves edit distances (lengths are preserved by `List.map`). -/
theorem getSimilarityL_map (f : Char → Char)
    (hf : ∀ a b : List Char, editDistanceL (a.map f) (b.map f) = editDistanceL a b)
    (s1 s2 : List Char) :
    getSimilarityL (s1.map f) (s2.map f) = getSimilarityL s1 s2 := by
  simp only [getSimilarityL, List.length_map]
  by_cases hlt : s1.length < s2.length
  · simp only [if_pos hlt, List.length_map, hf]
  · simp only [if_neg hlt, List.length_map, hf]

/-! ## Claim C6: the similarity function -/

/-- **C6.** For every pair of strings, `getSimilarity` equals `1` minus
the Levenshtein edit distance (insert/delete/substitute of cost 1,
computed by the classic dynamic-programming recurrence `levNat`) of the
lowercased strings divided by the length of the longer string; it lies in
`[0, 1]`; it is case-insensitive (invariant under lowercasing or
uppercasing the inputs); and it equals 1 when both strings are empty. -/
theorem getSimilarity_spec (s1 s2 : String) :
    (0 < max s1.length s2.length →
      getSimilarity s1 s2 =
        1 - (levenshtein (s1.data.map Char.toLower) (s2.data.map Char.toLower) : ℚ) /
          ((max s1.length s2.length : Nat) : ℚ)) ∧
    0 ≤ getSimilarity s1 s2 ∧ getSimilarity s1 s2 ≤ 1 ∧
    getSimilarityL (s1.data.map Char.toLower) (s2.data.map Char.toLower) =
      getSimilarityL s1.data s2.data ∧
    getSimilarityL (jsToUpper s1.data) (jsToUpper s2.data) =
      getSimilarityL s1.data s2.data ∧
    (s1.length = 0 → s2.length = 0 → getSimilarity s1 s2 = 1) := by
  have hlen1 : s1.length = s1.data.length := rfl
  have hlen2 : s2.length = s2.data.length := rfl
  have hsym : levenshtein (s2.data.map Char.toLower) (s1.data.map Char.toLower) =
      levenshtein (s1.data.map Char.toLower) (s2.data.map Char.toLower) := by
    simp only [levenshtein]
    rw [levNat_symm]
  have hval : getSimilarity s1 s2 =
      if (max s1.data.length s2.data.length : Nat) = 0 then 1
      else (((max s1.data.length s2.data.length : Nat) : ℚ) -
          (levenshtein (s1.data.map Char.toLower) (s2.data.map Char.toLower) : ℚ)) /
        ((max s1.data.length s2.data.length : Nat) : ℚ) := by
    simp only [getSimilarity, getSimilarityL]
    by_cases hlt : s1.data.length < s2.data.length
    · rw [Nat.max_eq_right (le_of_lt hlt)]
      simp only [if_pos hlt]
      rw [editDistanceL_eq_levenshtein s2.data s1.data, hsym]
    · rw [Nat.max_eq_left (Nat.not_lt.mp hlt)]
      simp only [if_neg hlt]
      rw [editDistanceL_eq_levenshtein s1.data s2.data]
  have hle : levenshtein (s1.data.map Char.toLower) (s2.data.map Char.toLower) ≤
      max s1.data.length s2.data.length := by
    have h := levNat_le_max (s1.data.map Char.toLower) (s2.data.map Char.toLower)
      (s1.data.map Char.toLower).length (s2.data.map Char.toLower).length
    simpa [levenshtein, List.length_map] using h
  refine ⟨?_, ?_, ?_, ?_, ?_, ?_⟩
  · intro h0
    rw [hlen1, hlen2] at h0 ⊢
    rw [hval, if_neg (by omega),
      one_sub_div (by exact_mod_cast (by omega : (max s1.data.length s2.data.length : Nat) ≠ 0))]
  · rw [hval]
    by_cases hm : (max s1.data.length s2.data.length : Nat) = 0
    · rw [if_pos hm]
      norm_num
    · rw [if_neg hm]
      apply div_nonneg
      · rw [sub_nonneg]
        exact_mod_cast hle
      · positivity
  · rw [hval]
    by_cases hm : (max s1.data.length s2.data.length : Nat) = 0
    · rw [if_pos hm]
    · rw [if_neg hm]
      have hpos : (0 : ℚ) < ((max s1.data.length s2.data.length : Nat) : ℚ) := by
        exact_mod_cast Nat.pos_of_ne_zero hm
      rw [div_le_one hpos]
      have hnn : (0 : ℚ) ≤
          (levenshtein (s1.data.map Char.toLower) (s2.data.map Char.toLower) : ℚ) := by
        positivity
      linarith
  · exact getSimilarityL_map Char.toLower editDistanceL_map_toLower s1.data s2.data
  · exact getSimilarityL_map Char.toUpper editDistanceL_map_toUpper s1.data s2.data
  · intro h1 h2
    rw [hlen1] at h1
    rw [hlen2] at h2
    rw [hval, if_pos (by omega)]

/-- Witness for `getSimilarity_spec`: the formula conjunct at the
concrete pair `"Ab"`, `"b"`. -/
theorem getSimilarity_spec_witness :
    getSimilarity "Ab" "b" =
      1 - (levenshtein ("Ab".data.map Char.toLower) ("b".data.map Char.toLower) : ℚ) /
        ((max "Ab".length "b".length : Nat) : ℚ) :=
  (getSimilarity_spec "Ab" "b").1 (by decide)

/-! ## Structural facts about the `generateQuestion` paths -/

theorem generateQuestionCatch_usedDbReuse (difficulty : Nat) (o : GenOracle)
    (b : Bool) : (generateQuestionCatch difficulty o b).usedDbReuse = false := by
  simp only [generateQuestionCatch]
  repeat' split
  all_goals rfl

theorem generateQuestionCatch_madeDragDrop (difficulty : Nat) (o : GenOracle)
    (b : Bool) : (generateQuestionCatch difficulty o b).madeDragDrop = false := by
  simp only [generateQuestionCatch]
  repeat' split
  all_goals rfl

theorem generateQuestionCatch_calledAI (difficulty : Nat) (o : GenOracle)
    (b : Bool) : (generateQuestionCatch difficulty o b).calledAI = b := by
  simp only [generateQuestionCatch]
  repeat' split
  all_goals rfl

theorem generateQuestionAI_usedDbReuse (difficulty : Nat) (o : GenOracle) :
    (generateQuestionAI difficulty o).usedDbReuse = false := by
  unfold generateQuestionAI
  split
  · rfl
  · exact generateQuestionCatch_usedDbReuse difficulty o true

theorem generateQuestionAI_madeDragDrop (difficulty : Nat) (o : GenOracle) :
    (generateQuestionAI difficulty o).madeDragDrop = false := by
  unfold generateQuestionAI
  split
  · rfl
  · exact generateQuestionCatch_madeDragDrop difficulty o true

theorem generateQuestionAI_calledAI (difficulty : Nat) (o : GenOracle) :
    (generateQuestionAI difficulty o).calledAI = true := by
  unfold generateQuestionAI
  split
  · rfl
  · exact generateQuestionCatch_calledAI difficulty o true

/-- The catch block always produces an item when the fallback draw lies
in `[0, 1)` (the static set is nonempty and the index is in bounds). -/
theorem generateQuestionCatch_isSome (difficulty : Nat) (o : GenOracle) (b : Bool)
    (h0 : 0 ≤ o.rFall) (h1 : o.rFall < 1) :
    (generateQuestionCatch difficulty o b).result.isSome = true := by
  simp only [generateQuestionCatch]
  have hlen : (FALLBACK_QUESTIONS.length : ℚ) = 10 := by norm_num [FALLBACK_QUESTIONS]
  have hidx0 : 0 ≤ ⌊o.rFall * (FALLBACK_QUESTIONS.length : ℚ)⌋ :=
    Int.floor_nonneg.mpr (by rw [hlen]; positivity)
  have hidxlt : ⌊o.rFall * (FALLBACK_QUESTIONS.length : ℚ)⌋ < 10 := by
    apply Int.floor_lt.mpr
    rw [hlen]
    push_cast
    nlinarith
  have hnat : (⌊o.rFall * (FALLBACK_QUESTIONS.length : ℚ)⌋).toNat < FALLBACK_QUESTIONS.length := by
    have : FALLBACK_QUESTIONS.length = 10 := by norm_num [FALLBACK_QUESTIONS]
    omega
  split
  · rfl
  · rw [if_pos hidx0]
    cases hget : FALLBACK_QUESTIONS.get? (⌊o.rFall * (FALLBACK_QUESTIONS.length : ℚ)⌋).toNat with
    | none =>
      exfalso
      have := List.get?_eq_none.mp hget
      omega
    | some fb =>
      rfl

/-- The locally-constructed placement item is always produced when the
item draw lies in `[0, 1)`. -/
theorem generateDragDropQuestion_isSome (difficulty : Nat) (id : String)
    (rItem rCount rExtra : ℚ) (h0 : 0 ≤ rItem) (h1 : rItem < 1) :
    (generateDragDropQuestion difficulty id rItem rCount rExtra).isSome = true := by
  simp only [generateDragDropQuestion]
  have hlen : (dragItems.length : ℚ) = 5 := by norm_num [dragItems]
  have hidx0 : 0 ≤ ⌊rItem * (dragItems.length : ℚ)⌋ :=
    Int.floor_nonneg.mpr (by rw [hlen]; positivity)
  have hidxlt : ⌊rItem * (dragItems.length : ℚ)⌋ < 5 := by
    apply Int.floor_lt.mpr
    rw [hlen]
    push_cast
    nlinarith
  have hnat : (⌊rItem * (dragItems.length : ℚ)⌋).toNat < dragItems.length := by
    have : dragItems.length = 5 := by norm_num [dragItems]
    omega
  rw [if_pos hidx0]
  cases hget : dragItems.get? (⌊rItem * (dragItems.length : ℚ)⌋).toNat with
  | none =>
    exfalso
    have := List.get?_eq_none.mp hget
    omega
  | some it =>
    rfl

/-! ## Claim C5: cold-start tier forces synthesis deterministically -/

/-- **C5.** Whenever the corpus count for the category is below the first
tier threshold (`dbCount < 50`) and the tier die lies in `[0, 1)` (as
`Math.random()` always does), the corpus-reuse path is never taken, and
— whenever the placement pre-check does not fire — the synthesis call is
made with certainty, not probabilistically. -/
theorem generateQuestion_coldStart_forcesAI (subject : Subject) (difficulty : Nat)
    (previousType : Option QuestionType) (o : GenOracle) (cnt : Nat)
    (hcnt : o.dbCount = some cnt) (hlt : cnt < 50)
    (hr1 : o.rDice < 1) :
    (generateQuestion subject difficulty previousType o).usedDbReuse = false ∧
    (¬((subject = .MATH ∧ difficulty ≤ 2 ∧ previousType ≠ some .DRAG_AND_DROP) ∧
        o.rDrag < 3 / 10) →
      (generateQuestion subject difficulty previousType o).calledAI = true) := by
  unfold generateQuestion
  by_cases hpre : (subject = .MATH ∧ difficulty ≤ 2 ∧ previousType ≠ some .DRAG_AND_DROP) ∧
      o.rDrag < 3 / 10
  · rw [if_pos hpre]
    exact ⟨rfl, fun h => absurd hpre h⟩
  · rw [if_neg hpre, hcnt]
    simp only
    rw [if_pos hlt, if_neg (not_not_intro hr1)]
    exact ⟨generateQuestionAI_usedDbReuse difficulty o,
      fun _ => generateQuestionAI_calledAI difficulty o⟩

/-- Witness for `generateQuestion_coldStart_forcesAI` at a concrete
oracle (count 0, die 0, pre-check ineligible: LOGIC subject). -/
theorem generateQuestion_coldStart_forcesAI_witness :
    (generateQuestion .LOGIC 3 none
      { rDrag := 0, dbCount := some 0, rDice := 0, dbQuestion := some none,
        aiResult := none, rescueResult := some none, rFall := 0 }).usedDbReuse = false :=
  (generateQuestion_coldStart_forcesAI .LOGIC 3 none
    { rDrag := 0, dbCount := some 0, rDice := 0, dbQuestion := some none,
      aiResult := none, rescueResult := some none, rFall := 0 }
    0 rfl (by norm_num) (by norm_num)).1

/-! ## Claim C4: an item is always returned -/

/-- **C4.** One `generateQuestion` call never resolves empty: whatever
the outcomes of the external calls (corpus count read, corpus draws,
backend synthesis — any of which may throw or come back empty), the
result is an item, with the documented chain: a failed synthesis falls
back to a corpus rescue draw, and if the rescue yields nothing the item
comes from the static built-in set. -/
theorem generateQuestion_total (subject : Subject) (difficulty : Nat)
    (previousType : Option QuestionType) (o : GenOracle)
    (hItem0 : 0 ≤ o.rItem) (hItem1 : o.rItem < 1)
    (hFall0 : 0 ≤ o.rFall) (hFall1 : o.rFall < 1) :
    loadNextQuestion [] (generateQuestion subject difficulty previousType o) =
      (generateQuestion subject difficulty previousType o).result ∧
    (generateQuestion subject difficulty previousType o).result.isSome = true ∧
    (∀ q, (generateQuestion subject difficulty previousType o).calledAI = true →
      o.aiResult = none → o.rescueResult = some (some q) →
      (generateQuestion subject difficulty previousType o).usedRescue = true) ∧
    ((generateQuestion subject difficulty previousType o).calledAI = true →
      o.aiResult = none → (o.rescueResult = none ∨ o.rescueResult = some none) →
      (generateQuestion subject difficulty previousType o).usedStaticFallback = true) := by
  refine ⟨rfl, ?_⟩
  have hcatchSome := generateQuestionCatch_isSome difficulty o
  have hrescue : ∀ q (b : Bool), o.rescueResult = some (some q) →
      (generateQuestionCatch difficulty o b).usedRescue = true := by
    intro q b hq
    simp only [generateQuestionCatch, hq]
  have hstatic : ∀ b : Bool, (o.rescueResult = none ∨ o.rescueResult = some none) →
      (generateQuestionCatch difficulty o b).usedStaticFallback = true := by
    intro b hq
    rcases hq with hq | hq <;>
      simp only [generateQuestionCatch, hq] <;>
      split <;> rfl
  unfold generateQuestion
  by_cases hpre : (subject = .MATH ∧ difficulty ≤ 2 ∧ previousType ≠ some .DRAG_AND_DROP) ∧
      o.rDrag < 3 / 10
  · rw [if_pos hpre]
    refine ⟨generateDragDropQuestion_isSome difficulty o.dragId o.rItem o.rCount o.rExtra
      hItem0 hItem1, ?_, ?_⟩
    · intro q hAI
      exact absurd hAI (by simp)
    · intro hAI
      exact absurd hAI (by simp)
  · rw [if_neg hpre]
    cases hdb : o.dbCount with
    | none =>
      refine ⟨hcatchSome false hFall0 hFall1, ?_, ?_⟩
      · intro q hAI
        rw [generateQuestionCatch_calledAI] at hAI
        exact absurd hAI (by simp)
      · intro hAI
        rw [generateQuestionCatch_calledAI] at hAI
        exact absurd hAI (by simp)
    | some cnt =>
      simp only
      have hAIcase :
          (generateQuestionAI difficulty o).result.isSome = true ∧
          (∀ q, o.aiResult = none → o.rescueResult = some (some q) →
            (generateQuestionAI difficulty o).usedRescue = true) ∧
          (o.aiResult = none → (o.rescueResult = none ∨ o.rescueResult = some none) →
            (generateQuestionAI difficulty o).usedStaticFallback = true) := by
        unfold generateQuestionAI
        cases hai : o.aiResult with
        | some q => exact ⟨rfl, fun q h => by simp at h, fun h => by simp at h⟩
        | none =>
          exact ⟨hcatchSome true hFall0 hFall1,
            fun q _ hq => hrescue q true hq,
            fun _ hq => hstatic true hq⟩
      repeat' split
      all_goals first
        | exact ⟨rfl, fun q h => by simp at h, fun h => by simp at h⟩
        | exact ⟨hAIcase.1, fun q _ => hAIcase.2.1 q, fun _ => hAIcase.2.2⟩
        | exact ⟨hcatchSome false hFall0 hFall1,
            fun q hAI => absurd
              ((generateQuestionCatch_calledAI difficulty o false).symm.trans hAI)
              Bool.false_ne_true,
            fun hAI => absurd
              ((generateQuestionCatch_calledAI difficulty o false).symm.trans hAI)
              Bool.false_ne_true⟩

/-- Witness for `generateQuestion_total`: everything unavailable (count
read throws, synthesis throws, rescue throws) — an item is still
returned. -/
theorem generateQuestion_total_witness :
    (generateQuestion .MATH 1 (some .DRAG_AND_DROP)
      { rDrag := 0, dbCount := none, rDice := 0, dbQuestion := none,
        aiResult := none, rescueResult := none, rFall := 0 }).result.isSome = true :=
  (generateQuestion_total .MATH 1 (some .DRAG_AND_DROP)
    { rDrag := 0, dbCount := none, rDice := 0, dbQuestion := none,
      aiResult := none, rescueResult := none, rFall := 0 }
    le_rfl (by norm_num) le_rfl (by norm_num)).2.1

/-! ## Claim C8: the placement-item throttle (corrected) -/

/-- **C8, counterexample.**  `ensureBufferFilled` takes one
`previousType` snapshot for the whole batch, so two concurrently
dispatched calls can both pass the placement pre-check: with an empty
queue, no displayed item, 3 in flight and two dispatched calls whose
pre-check draws are below 0.3, both calls produce placement items and the
buffer ends up holding two placement items, adjacent to each other. -/
theorem ensureBufferFilled_two_placement :
    (bufferAfterFill .MATH 1 [] none 3
        [{ rDrag := 0, dbCount := some 0, rDice := 0, dbQuestion := some none,
           aiResult := none, rescueResult := some none, rFall := 0 },
         { rDrag := 0, dbCount := some 0, rDice := 0, dbQuestion := some none,
           aiResult := none, rescueResult := some none, rFall := 0 }]).map Question.type
      = [.DRAG_AND_DROP, .DRAG_AND_DROP] := by
  norm_num [bufferAfterFill, fillOutcomes, ensureBufferFilled, neededCount,
    BUFFER_TARGET_SIZE, lastTypeInChain, generateQuestion, generateDragDropQuestion,
    dragItems]
  simp

/-- **C8 (amended).** A dispatched call whose `previousType` context is a
placement item never produces a placement item (so, within one dispatch
chain, a placement item is never generated twice in a row); since all
calls of one `ensureBufferFilled` batch share a single previous-type
snapshot, this throttle does not prevent two placement items from being
produced concurrently into the same buffer (see the counterexample). -/
theorem generateQuestion_no_placement_after_placement (subject : Subject)
    (difficulty : Nat) (o : GenOracle) :
    (generateQuestion subject difficulty (some .DRAG_AND_DROP) o).madeDragDrop = false := by
  unfold generateQuestion
  rw [if_neg (by simp)]
  cases o.dbCount with
  | none => exact generateQuestionCatch_madeDragDrop difficulty o false
  | some cnt =>
    simp only
    repeat' split
    all_goals first
      | rfl
      | exact generateQuestionAI_madeDragDrop difficulty o
      | exact generateQuestionCatch_madeDragDrop difficulty o false

/-! ## Claim C9: the in-flight counter invariant -/

/-- Single-step preservation of `counter = dispatched - settled`. -/
theorem flightStep_counter (st : FlightStats) (e : FlightEvent)
    (h : st.counter = (st.dispatched : Int) - st.settled) :
    (flightStep st e).counter =
      ((flightStep st e).dispatched : Int) - (flightStep st e).settled := by
  cases e with
  | ensureFilled bufferLen =>
    simp only [flightStep]
    push_cast
    omega
  | settle =>
    simp only [flightStep]
    push_cast
    omega

/-- `counter = dispatched - settled` holds after any trace. -/
theorem flightRun_counter_eq :
    ∀ (trace : List FlightEvent) (st : FlightStats),
      st.counter = (st.dispatched : Int) - st.settled →
      (trace.foldl flightStep st).counter =
        ((trace.foldl flightStep st).dispatched : Int) -
          (trace.foldl flightStep st).settled := by
  intro trace
  induction trace with
  | nil => intro st h; exact h
  | cons e t ih =>
    intro st h
    exact ih (flightStep st e) (flightStep_counter st e h)

/-- **C9.** The in-flight counter is incremented once per dispatched
synthesis request and decremented exactly once when that request settles
(the dispatched call catches every failure internally, so it always
settles its promise); consequently, along any valid session trace the
counter always equals the number of dispatched-but-unsettled requests and
is never negative. -/
theorem flightCounter_invariant (trace : List FlightEvent)
    (hv : ValidTrace trace) :
    (flightRun trace).counter =
      ((flightRun trace).dispatched : Int) - (flightRun trace).settled ∧
    0 ≤ (flightRun trace).counter := by
  have e : flightRun trace = trace.foldl flightStep {} := rfl
  have h1 := flightRun_counter_eq trace {} (by simp)
  have h2 := hv trace [] (by simp)
  rw [e] at h2 ⊢
  exact ⟨h1, by omega⟩

/-- Witness for `flightCounter_invariant`: the trace of one
`ensureBufferFilled` run on a fresh session followed by one settlement. -/
theorem flightCounter_invariant_witness :
    (flightRun [.ensureFilled 0, .settle]).counter =
      ((flightRun [.ensureFilled 0, .settle]).dispatched : Int) -
        (flightRun [.ensureFilled 0, .settle]).settled ∧
    0 ≤ (flightRun [.ensureFilled 0, .settle]).counter := by
  refine flightCounter_invariant [.ensureFilled 0, .settle] ?_
  intro t₁ t₂ h
  rcases t₁ with _ | ⟨a, _ | ⟨b, rest⟩⟩
  · decide
  · simp only [List.cons_append, List.cons.injEq] at h
    rw [← h.1]
    decide
  · simp only [List.cons_append, List.cons.injEq] at h
    have ha := h.1
    have hb := h.2.1
    have hrest := h.2.2
    have hr : rest = [] := by
      cases rest with
      | nil => rfl
      | cons c cs => simp at hrest
    subst hr
    rw [← ha, ← hb]
    decide

end TagMastaren

